import Mathlib

/-!
# Verification of the muse tracker component (`src/tracker-component.js`)

A shallow embedding of the event-shaping and beacon-dispatch logic of the
tracker component, together with proofs of the specified properties.

The component's runtime values (event payloads, configuration fields) are
JavaScript values.  The Flow types of the source confine every payload field
to strings, arrays and nested objects, so the value model below carries
`undef`, `null`, booleans, strings, arrays and objects; JSON numbers never
occur in any payload this component builds and are therefore not modelled.
-/

namespace Muse

/-- JavaScript values as they occur in this component's payloads:
`undefined`, `null`, booleans, strings, arrays and objects (association
lists of fields in insertion order). -/
inductive JsVal where
  | undefined : JsVal
  | null : JsVal
  | bool (b : Bool) : JsVal
  | str (s : String) : JsVal
  | arr (xs : List JsVal) : JsVal
  | obj (fs : List (String × JsVal)) : JsVal
deriving Repr

/-- JavaScript truthiness for the modelled values: `undefined`, `null`,
`false` and the empty string are falsy; every array and object is truthy. -/
def jsTruthy : JsVal → Bool
  | .undefined => false
  | .null => false
  | .bool b => b
  | .str s => !s.isEmpty
  | .arr _ => true
  | .obj _ => true

/-- First binding of a key in a field list (JavaScript objects hold each key
at most once; every object this model builds is constructed through
`jsAssign`, which preserves that invariant). -/
def jsLookup (fs : List (String × JsVal)) (k : String) : Option JsVal :=
  match fs with
  | [] => none
  | (k', v) :: rest => if k' = k then some v else jsLookup rest k

/-- Property write `o[k] = v` / spread-override `{ ...o, k: v }`: an existing
key keeps its position and receives the new value, a fresh key is appended. -/
def jsAssign (fs : List (String × JsVal)) (k : String) (v : JsVal) : List (String × JsVal) :=
  match fs with
  | [] => [(k, v)]
  | (k', v') :: rest => if k' = k then (k', v) :: rest else (k', v') :: jsAssign rest k v

/-- Property read `v[k]`.  On objects this is the stored field (or
`undefined` when absent).  Reads the component performs always have an
object receiver on the paths proved here; reading a property of a
non-object is returned as `undefined` (for `undefined`/`null` receivers
real JavaScript would throw, a path never taken in the proved theorems). -/
def jsField : JsVal → String → JsVal
  | .obj fs, k => (jsLookup fs k).getD .undefined
  | _, _ => .undefined

/-- JavaScript `a || b` on modelled values. -/
def jsOr (a b : JsVal) : JsVal :=
  if jsTruthy a then a else b

mutual

/-- `true` when the value contains no `undefined` anywhere. -/
def noUndefined : JsVal → Bool
  | .undefined => false
  | .null => true
  | .bool _ => true
  | .str _ => true
  | .arr xs => noUndefinedList xs
  | .obj fs => noUndefinedFields fs

/-- `noUndefined` over array elements. -/
def noUndefinedList : List JsVal → Bool
  | [] => true
  | x :: xs => noUndefined x && noUndefinedList xs

/-- `noUndefined` over object fields. -/
def noUndefinedFields : List (String × JsVal) → Bool
  | [] => true
  | (_, v) :: fs => noUndefined v && noUndefinedFields fs

end

mutual

/-- The value `JSON.stringify` actually serializes: object entries whose
value is `undefined` are omitted, and `undefined` array elements are
printed as `null`.  `scrub` performs exactly that normalisation. -/
def scrub : JsVal → JsVal
  | .undefined => .null
  | .null => .null
  | .bool b => .bool b
  | .str s => .str s
  | .arr xs => .arr (scrubList xs)
  | .obj fs => .obj (scrubFields fs)

/-- `scrub` over array elements (`undefined` becomes `null`). -/
def scrubList : List JsVal → List JsVal
  | [] => []
  | x :: xs => scrub x :: scrubList xs

/-- `scrub` over object fields (`undefined`-valued entries are dropped). -/
def scrubFields : List (String × JsVal) → List (String × JsVal)
  | [] => []
  | (k, v) :: fs =>
    match v with
    | .undefined => scrubFields fs
    | v' => (k, scrub v') :: scrubFields fs

end

/-- Lower-case hexadecimal digit, as `JSON.stringify` prints in `\u00xx`
escapes (argument below 16). -/
def hexLowerDigit (n : Nat) : Char :=
  if n < 10 then Char.ofNat (48 + n) else Char.ofNat (87 + n)

/-- How `JSON.stringify` escapes one character inside a string literal:
quote and backslash get a backslash escape, the named control characters
get their short escapes, the remaining control characters get `\u00xx`,
and everything else is emitted verbatim. -/
def escapeChar (c : Char) : List Char :=
  if c = '"' then ['\\', '"']
  else if c = '\\' then ['\\', '\\']
  else if c.toNat = 8 then ['\\', 'b']
  else if c.toNat = 9 then ['\\', 't']
  else if c.toNat = 10 then ['\\', 'n']
  else if c.toNat = 12 then ['\\', 'f']
  else if c.toNat = 13 then ['\\', 'r']
  else if c.toNat < 32 then ['\\', 'u', '0', '0', hexLowerDigit (c.toNat / 16), hexLowerDigit (c.toNat % 16)]
  else [c]

/-- A JSON string literal: quote, escaped characters, quote. -/
def stringifyStringChars (s : String) : List Char :=
  '"' :: (s.data.flatMap escapeChar ++ ['"'])

mutual

/-- Serialisation of a (scrubbed) value, exactly as `JSON.stringify`
prints it: literals for `null`/booleans, escaped string literals,
comma-separated arrays and `"key":value` objects, with no whitespace.
(`undef` only reaches this function as an array element of an unscrubbed
value, where `JSON.stringify` prints `null`.) -/
def stringifyChars : JsVal → List Char
  | .undefined => "null".data
  | .null => "null".data
  | .bool true => "true".data
  | .bool false => "false".data
  | .str s => stringifyStringChars s
  | .arr xs => ('[' :: stringifyElemsChars xs) ++ [']']
  | .obj fs => ('{' :: stringifyFieldsChars fs) ++ ['}']

/-- Array elements, comma separated. -/
def stringifyElemsChars : List JsVal → List Char
  | [] => []
  | [x] => stringifyChars x
  | x :: xs => (stringifyChars x ++ [',']) ++ stringifyElemsChars xs

/-- Object fields, `"key":value`, comma separated. -/
def stringifyFieldsChars : List (String × JsVal) → List Char
  | [] => []
  | [(k, v)] => stringifyStringChars k ++ (':' :: stringifyChars v)
  | (k, v) :: fs => (stringifyStringChars k ++ (':' :: stringifyChars v) ++ [',']) ++ stringifyFieldsChars fs

end

/-- `JSON.stringify`: `undefined` (for this component: only a top-level
`undefined` argument) serialises to no string at all, every other value
is scrubbed (dropping `undefined` object entries, nulling `undefined`
array elements, as the builtin does) and printed. -/
def jsonStringify : JsVal → Option String
  | .undefined => none
  | v => some ⟨stringifyChars (scrub v)⟩

/-- The JSON whitespace characters skipped by `JSON.parse`. -/
def isJsonWs (c : Char) : Bool :=
  c = ' ' || c = '\t' || c = '\n' || Char.ofNat 13 = c

/-- Drop leading JSON whitespace. -/
def skipWs : List Char → List Char
  | [] => []
  | c :: cs => if isJsonWs c then skipWs cs else c :: cs

/-- Value of one hexadecimal digit (either case), as accepted inside a
`\uXXXX` escape by `JSON.parse`. -/
def hexDigitVal (c : Char) : Option Nat :=
  if 48 ≤ c.toNat ∧ c.toNat ≤ 57 then some (c.toNat - 48)
  else if 97 ≤ c.toNat ∧ c.toNat ≤ 102 then some (c.toNat - 87)
  else if 65 ≤ c.toNat ∧ c.toNat ≤ 70 then some (c.toNat - 55)
  else none

/-- The character named by a single-character JSON escape (`\"`, `\\`,
`\/`, `\b`, `\f`, `\n`, `\r`, `\t`). -/
def simpleUnescape (e : Char) : Option Char :=
  if e = '"' then some '"'
  else if e = '\\' then some '\\'
  else if e = '/' then some '/'
  else if e = 'b' then some (Char.ofNat 8)
  else if e = 'f' then some (Char.ofNat 12)
  else if e = 'n' then some '\n'
  else if e = 'r' then some (Char.ofNat 13)
  else if e = 't' then some '\t'
  else none

/-- Body of a JSON string literal, after the opening quote: characters up
to the closing quote, undoing escapes; unescaped control characters are
rejected, as `JSON.parse` does.  A `\uXXXX` escape denoting a value that
is not a Unicode scalar is rejected (real `JSON.parse`, working on UTF-16
units, would accept a surrogate half; no serialiser output contains one). -/
def parseStringBody : List Char → Option (List Char × List Char)
  | [] => none
  | c :: rest =>
    if c = '"' then some ([], rest)
    else if c = '\\' then
      match rest with
      | [] => none
      | e :: rest2 =>
        if e = 'u' then
          match rest2 with
          | h1 :: h2 :: h3 :: h4 :: rest3 =>
            match hexDigitVal h1, hexDigitVal h2, hexDigitVal h3, hexDigitVal h4 with
            | some a, some b, some c3, some d =>
              let n := a * 4096 + b * 256 + c3 * 16 + d
              if n.isValidChar then
                match parseStringBody rest3 with
                | some (s, r) => some (Char.ofNat n :: s, r)
                | none => none
              else none
            | _, _, _, _ => none
          | _ => none
        else
          match simpleUnescape e with
          | some c2 =>
            match parseStringBody rest2 with
            | some (s, r) => some (c2 :: s, r)
            | none => none
          | none => none
    else if c.toNat < 32 then none
    else
      match parseStringBody rest with
      | some (s, r) => some (c :: s, r)
      | none => none

mutual

/-- One JSON value, by recursive descent with an explicit recursion
budget: leading whitespace, then a `null`/`true`/`false` literal, a
string literal, an array or an object.  (JSON numbers are not modelled:
no payload of this component contains one.)  Returns the value and the
unconsumed suffix. -/
def parseVal : Nat → List Char → Option (JsVal × List Char)
  | 0, _ => none
  | f + 1, cs =>
    match skipWs cs with
    | [] => none
    | c :: rest =>
      if c = 'n' then
        match rest with
        | a :: b :: c2 :: rest2 =>
          if a = 'u' ∧ b = 'l' ∧ c2 = 'l' then some (.null, rest2) else none
        | _ => none
      else if c = 't' then
        match rest with
        | a :: b :: c2 :: rest2 =>
          if a = 'r' ∧ b = 'u' ∧ c2 = 'e' then some (.bool true, rest2) else none
        | _ => none
      else if c = 'f' then
        match rest with
        | a :: b :: c2 :: d :: rest2 =>
          if a = 'a' ∧ b = 'l' ∧ c2 = 's' ∧ d = 'e' then some (.bool false, rest2) else none
        | _ => none
      else if c = '"' then
        match parseStringBody rest with
        | some (s, r) => some (.str ⟨s⟩, r)
        | none => none
      else if c = '[' then
        match skipWs rest with
        | c2 :: rest2 => if c2 = ']' then some (.arr [], rest2) else
            match parseElems f rest with
            | some (xs, r) => some (.arr xs, r)
            | none => none
        | [] => none
      else if c = '{' then
        match skipWs rest with
        | c2 :: rest2 => if c2 = '}' then some (.obj [], rest2) else
            match parseFields f rest with
            | some (fs, r) => some (.obj fs, r)
            | none => none
        | [] => none
      else none

/-- One or more comma-separated array elements followed by `]`. -/
def parseElems : Nat → List Char → Option (List JsVal × List Char)
  | 0, _ => none
  | f + 1, cs =>
    match parseVal f cs with
    | some (j, r) =>
      match skipWs r with
      | c :: r2 =>
        if c = ',' then
          match parseElems f r2 with
          | some (js, r3) => some (j :: js, r3)
          | none => none
        else if c = ']' then some ([j], r2)
        else none
      | [] => none
    | none => none

/-- One or more comma-separated `"key":value` object members followed
by `}`. -/
def parseFields : Nat → List Char → Option (List (String × JsVal) × List Char)
  | 0, _ => none
  | f + 1, cs =>
    match skipWs cs with
    | c :: rest =>
      if c = '"' then
        match parseStringBody rest with
        | some (k, r) =>
          match skipWs r with
          | c2 :: r2 =>
            if c2 = ':' then
              match parseVal f r2 with
              | some (v, r3) =>
                match skipWs r3 with
                | c3 :: r4 =>
                  if c3 = ',' then
                    match parseFields f r4 with
                    | some (fs, r5) => some ((⟨k⟩, v) :: fs, r5)
                    | none => none
                  else if c3 = '}' then some ([(⟨k⟩, v)], r4)
                  else none
                | [] => none
              | none => none
            else none
          | [] => none
        | none => none
      else none
    | [] => none

end

/-- `JSON.parse` (on the number-free fragment this component emits): one
value, then nothing but trailing whitespace.  The recursion budget
`s.length + 1` exceeds the nesting depth of anything parsable from `s`. -/
def jsonParse (s : String) : Option JsVal :=
  match parseVal (s.length + 1) s.data with
  | some (j, rest) =>
    match skipWs rest with
    | [] => some j
    | _ => none
  | none => none

mutual

/-- Structural size of a value, bounding the recursion budget the parser
needs to read its serialisation back. -/
def sizeVal : JsVal → Nat
  | .undefined => 1
  | .null => 1
  | .bool _ => 1
  | .str _ => 1
  | .arr xs => 1 + sizeList xs
  | .obj fs => 1 + sizeFields fs

/-- `sizeVal` over array elements. -/
def sizeList : List JsVal → Nat
  | [] => 0
  | x :: xs => 1 + sizeVal x + sizeList xs

/-- `sizeVal` over object fields. -/
def sizeFields : List (String × JsVal) → Nat
  | [] => 0
  | (_, v) :: fs => 1 + sizeVal v + sizeFields fs

end

/-! ## Base64 (`btoa` / `atob`) -/

/-- The base64 alphabet, in encoding order. -/
def base64Chars : List Char :=
  "ABCDEFGHIJKLMNOPQRSTUVWXYZabcdefghijklmnopqrstuvwxyz0123456789+/".data

/-- The base64 character for a sextet (argument below 64). -/
def b64Char (n : Nat) : Char := base64Chars.getD n 'A'

/-- Position of a character in the base64 alphabet. -/
def b64Index (c : Char) : Option Nat := base64Chars.findIdx? (· == c)

/-- Base64 encoding of a byte sequence, three bytes to four characters,
`=`-padded, exactly as `btoa` emits. -/
def btoaBytes : List Nat → List Char
  | [] => []
  | [b1] => [b64Char (b1 / 4), b64Char (b1 % 4 * 16), '=', '=']
  | [b1, b2] => [b64Char (b1 / 4), b64Char (b1 % 4 * 16 + b2 / 16), b64Char (b2 % 16 * 4), '=']
  | b1 :: b2 :: b3 :: rest =>
    b64Char (b1 / 4) :: b64Char (b1 % 4 * 16 + b2 / 16) :: b64Char (b2 % 16 * 4 + b3 / 64) ::
      b64Char (b3 % 64) :: btoaBytes rest

/-- `btoa`: base64 of the string's code units; throws (here: `none`) when
any unit is above 255. -/
def btoa (s : String) : Option String :=
  if s.data.all (fun c => c.toNat < 256) then some ⟨btoaBytes (s.data.map Char.toNat)⟩
  else none

/-- Base64 decoding of whole four-character groups with `=`-padding only at
the very end, the format `btoa` produces. -/
def atobChars : List Char → Option (List Nat)
  | [] => some []
  | c1 :: c2 :: c3 :: c4 :: rest =>
    match b64Index c1, b64Index c2 with
    | some n1, some n2 =>
      if c3 = '=' ∧ c4 = '=' ∧ rest = [] then
        some [n1 * 4 + n2 / 16]
      else if c4 = '=' ∧ rest = [] then
        match b64Index c3 with
        | some n3 => some [n1 * 4 + n2 / 16, n2 % 16 * 16 + n3 / 4]
        | none => none
      else
        match b64Index c3, b64Index c4 with
        | some n3, some n4 =>
          match atobChars rest with
          | some bs =>
            some ((n1 * 4 + n2 / 16) :: (n2 % 16 * 16 + n3 / 4) :: (n3 % 4 * 64 + n4) :: bs)
          | none => none
        | _, _ => none
    | _, _ => none
  | _ => none

/-- `atob`: decode base64 back to a string of the decoded bytes. -/
def atob (s : String) : Option String :=
  (atobChars s.data).map (fun bs => String.mk (bs.map Char.ofNat))

/-! ## Percent-encoding (`encodeURIComponent` / `decodeURIComponent`) -/

/-- The characters `encodeURIComponent` leaves unescaped: ASCII letters,
digits, and `- _ . ! ~ * ' ( )`. -/
def uriUnreserved (c : Char) : Bool :=
  (65 ≤ c.toNat && c.toNat ≤ 90) || (97 ≤ c.toNat && c.toNat ≤ 122) ||
  (48 ≤ c.toNat && c.toNat ≤ 57) ||
  c = '-' || c = '_' || c = '.' || c = '!' || c = '~' || c = '*' ||
  c.toNat = 39 || c = '(' || c = ')'

/-- Upper-case hexadecimal digit, as percent-escapes print (argument
below 16). -/
def hexUpperDigit (n : Nat) : Char :=
  if n < 10 then Char.ofNat (48 + n) else Char.ofNat (55 + n)

/-- UTF-8 bytes of a code point. -/
def utf8Bytes (n : Nat) : List Nat :=
  if n < 128 then [n]
  else if n < 2048 then [192 + n / 64, 128 + n % 64]
  else if n < 65536 then [224 + n / 4096, 128 + n / 64 % 64, 128 + n % 64]
  else [240 + n / 262144, 128 + n / 4096 % 64, 128 + n / 64 % 64, 128 + n % 64]

/-- `%XX` escape of one byte. -/
def pctEncodeByte (b : Nat) : List Char :=
  ['%', hexUpperDigit (b / 16), hexUpperDigit (b % 16)]

/-- `encodeURIComponent`: unreserved characters pass through, everything
else is percent-encoded as the UTF-8 bytes of its code point. -/
def encodeURIComponent (s : String) : String :=
  ⟨s.data.flatMap (fun c =>
    if uriUnreserved c then [c] else (utf8Bytes c.toNat).flatMap pctEncodeByte)⟩

/-- One `%XX` escape: a percent sign and two hexadecimal digits, giving
the byte value and the remaining input. -/
def pctByte : List Char → Option (Nat × List Char)
  | p :: h1 :: h2 :: r =>
    if p = '%' then
      match hexDigitVal h1, hexDigitVal h2 with
      | some a1, some a2 => some (a1 * 16 + a2, r)
      | _, _ => none
    else none
  | _ => none

/-- Continuation of a two-byte UTF-8 escape sequence whose lead byte is
`b1`: one continuation byte, rejecting malformed and overlong forms. -/
def decodeEsc2 (b1 : Nat) (r1 : List Char) : Option (Char × List Char) :=
  match pctByte r1 with
  | some (b2, r2) =>
    if 128 ≤ b2 ∧ b2 < 192 then
      let n := (b1 - 192) * 64 + (b2 - 128)
      if 128 ≤ n then some (Char.ofNat n, r2) else none
    else none
  | none => none

/-- Continuation of a three-byte UTF-8 escape sequence, rejecting
malformed, overlong and surrogate forms. -/
def decodeEsc3 (b1 : Nat) (r1 : List Char) : Option (Char × List Char) :=
  match pctByte r1 with
  | some (b2, r2) =>
    match pctByte r2 with
    | some (b3, r3) =>
      if (128 ≤ b2 ∧ b2 < 192) ∧ (128 ≤ b3 ∧ b3 < 192) then
        let n := (b1 - 224) * 4096 + (b2 - 128) * 64 + (b3 - 128)
        if 2048 ≤ n ∧ Nat.isValidChar n then some (Char.ofNat n, r3) else none
      else none
    | none => none
  | none => none

/-- Continuation of a four-byte UTF-8 escape sequence, rejecting
malformed, overlong and out-of-range forms. -/
def decodeEsc4 (b1 : Nat) (r1 : List Char) : Option (Char × List Char) :=
  match pctByte r1 with
  | some (b2, r2) =>
    match pctByte r2 with
    | some (b3, r3) =>
      match pctByte r3 with
      | some (b4, r4) =>
        if (128 ≤ b2 ∧ b2 < 192) ∧ (128 ≤ b3 ∧ b3 < 192) ∧ (128 ≤ b4 ∧ b4 < 192) then
          let n := (b1 - 240) * 262144 + (b2 - 128) * 4096 + (b3 - 128) * 64 + (b4 - 128)
          if 65536 ≤ n ∧ n < 1114112 then some (Char.ofNat n, r4) else none
        else none
      | none => none
    | none => none
  | none => none

/-- One percent-escaped UTF-8 sequence, after its leading `%`. -/
def decodePct (r : List Char) : Option (Char × List Char) :=
  match pctByte ('%' :: r) with
  | some (b1, r1) =>
    if b1 < 128 then some (Char.ofNat b1, r1)
    else if b1 < 192 then none
    else if b1 < 224 then decodeEsc2 b1 r1
    else if b1 < 240 then decodeEsc3 b1 r1
    else if b1 < 248 then decodeEsc4 b1 r1
    else none
  | none => none

/-- One decoded character: a percent-escape is decoded as UTF-8 (the
builtin's `URIError` cases are `none`), any other character passes
through. -/
def decodeOne : List Char → Option (Char × List Char)
  | [] => none
  | c :: rest => if c = '%' then decodePct rest else some (c, rest)

/-- Decode characters one at a time.  `decodeOne` consumes at least one
input character per decoded character, so a recursion budget of the
input length always suffices. -/
def decodeLoop : Nat → List Char → Option (List Char)
  | _, [] => some []
  | 0, _ :: _ => none
  | f + 1, c :: rest =>
    match decodeOne (c :: rest) with
    | some (ch, r) => (decodeLoop f r).map (fun cs => ch :: cs)
    | none => none

/-- `decodeURIComponent` on strings. -/
def decodeURIComponent (s : String) : Option String :=
  (decodeLoop s.length s.data).map (fun cs => String.mk cs)

/-! ## The tracker component (`src/tracker-component.js`) -/

/-- `sevenDays` from the source: `6.048e+8` milliseconds. -/
def sevenDays : Nat := 604800000

/-- `ONE_MONTH_IN_MILLISECONDS` from `setRandomUserIdCookie`. -/
def oneMonthMs : Nat := 30 * 24 * 60 * 60 * 1000

/-- Modelled from the spec: the storage get/set primitives
(`./lib/cookie-utils`, not part of the sources) are "a named storage key
holding a string token with a fixed time-to-live".  The store is a list of
(name, value, time-to-live) entries; setting an existing name overwrites
its entry in place. -/
def setCookieStore (st : List (String × String × Nat)) (name value : String) (ttl : Nat) :
    List (String × String × Nat) :=
  match st with
  | [] => [(name, value, ttl)]
  | (n, v, t) :: rest =>
    if n = name then (n, value, ttl) :: rest else (n, v, t) :: setCookieStore rest name value ttl

/-- Modelled from the spec: `getCookie` returns the stored value of a name,
or nothing. -/
def getCookieStore (st : List (String × String × Nat)) (name : String) : Option String :=
  match st with
  | [] => none
  | (n, v, _) :: rest => if n = name then some v else getCookieStore rest name

/-- The collaborators the component consumes but does not define: the
identifier generator (`./generate-id`, not part of the sources — modelled
from the spec as an opaque stream of fresh identifiers, indexed by how many
have been drawn) and the client/merchant identifier resolution of the SDK
(`getClientID`, `getMerchantID`). -/
structure Env where
  genId : Nat → String
  clientId : String
  merchantIds : List String

/-- The mutable state outside the configuration: the cookie store and the
number of identifiers generated so far. -/
structure TrackerState where
  cookies : List (String × String × Nat)
  gen : Nat

/-- `getUserIdCookie`: `getCookie('paypal-user-id') || null` — a stored
empty string is collapsed to `null` by the `||`. -/
def getUserIdCookie (st : TrackerState) : Option String :=
  match getCookieStore st.cookies "paypal-user-id" with
  | some v => if v = "" then none else some v
  | none => none

/-- `setRandomUserIdCookie`: persist a freshly generated identifier under
`paypal-user-id` for one month. -/
def setRandomUserIdCookie (env : Env) (st : TrackerState) : TrackerState :=
  { cookies := setCookieStore st.cookies "paypal-user-id" (env.genId st.gen) oneMonthMs,
    gen := st.gen + 1 }

/-- The `user` field of a configuration: the `email`/`name` properties
(either may be the JS `undefined`, as in `defaultTrackerConfig`). -/
structure JsUser where
  email : JsVal
  name : JsVal

/-- The `jetlore` field of a configuration: credentials plus the optional
`div`/`lang` (here a `JsVal`, `undef` when the caller omitted them). -/
structure JetloreInput where
  user_id : String
  access_token : String
  feed_id : String
  div : JsVal
  lang : JsVal

/-- The tracker configuration (the source's `Config` Flow type):
optional user info, optional property id, optional beacon-URL override,
optional jetlore credentials.  `property` holds the `id` value of the
property object. -/
structure Config where
  user : Option JsUser
  property : Option JsVal
  paramsToBeaconUrl : Option (String → JsVal → String)
  jetlore : Option JetloreInput

/-- `defaultTrackerConfig = { user: { email: undefined, name: undefined } }`. -/
def defaultTrackerConfig : Config :=
  { user := some { email := .undefined, name := .undefined }, property := none,
    paramsToBeaconUrl := none, jetlore := none }

/-- The `trackingConfig` object handed to `JL.tracking` by the `Tracker`
constructor.  For `div`/`lang`, `none` means the field was never assigned
and `some v` that it was assigned the value `v`. -/
structure JetloreConfigOut where
  cid : String
  user_id : String
  feed_id : String
  div : Option JsVal
  lang : Option JsVal

/-- The externally visible side effects of a call: appending a beacon
image with a `src` URL, and the calls into the external jetlore client
(`JL.tracking` initialisation and `JL.tracker[type](payload)`). -/
inductive Effect where
  | beacon (src : String) : Effect
  | jlTracking (cfg : JetloreConfigOut) : Effect
  | jlCall (type : String) (payload : JsVal) : Effect

/-- The fields contributed by `...config.user` (spreading `undefined`
contributes none). -/
def userFields : Option JsUser → List (String × JsVal)
  | none => []
  | some u => [("email", u.email), ("name", u.name)]

/-- A `string | null` value as a payload field. -/
def jsOfNullable : Option String → JsVal
  | some s => .str s
  | none => .null

/-- `config.property` as the payload's `property` field: the `{ id }`
object when configured, `undefined` otherwise. -/
def propertyVal : Option JsVal → JsVal
  | some pid => .obj [("id", pid)]
  | none => .undefined

/-- The default beacon URL template of `track`. -/
def beaconUrl (trackingType enc : String) : String :=
  "https://www.paypal.com/targeting/track/" ++ trackingType ++ "?data=" ++ enc

/-- `encodeData`: `encodeURIComponent(btoa(JSON.stringify(data)))`, applied
to the already-serialised string (`none` models the `btoa` exception on
code units above 255). -/
def encodeData (s : String) : Option String :=
  (btoa s).map encodeURIComponent

/-- What one `track` call produces: the state after the identity check,
the merged payload object, the image URL (`none` when `btoa` threw), the
dispatched event, and the effects. -/
structure TrackOut where
  state : TrackerState
  data : JsVal
  url : Option String
  events : List (String × JsVal)
  effects : List Effect

/-- `track(config, trackingType, trackingData)`: ensure an identity cookie
exists, merge the payload
`{ ...trackingData, user, property, trackingType, clientId, merchantId }`
with `user = { ...config.user, id: getUserIdCookie() }`, and point an
invisible image at either the override's URL or the default template with
the base64- and URL-encoded JSON payload. -/
def track (env : Env) (cfg : Config) (trackingType : String)
    (trackingData : List (String × JsVal)) (st : TrackerState) : TrackOut :=
  let st1 := if (getUserIdCookie st).isSome then st else setRandomUserIdCookie env st
  let user := JsVal.obj (jsAssign (userFields cfg.user) "id" (jsOfNullable (getUserIdCookie st1)))
  let data := JsVal.obj (jsAssign (jsAssign (jsAssign (jsAssign (jsAssign trackingData
      "user" user) "property" (propertyVal cfg.property)) "trackingType" (.str trackingType))
      "clientId" (.str env.clientId)) "merchantId" (.str (String.intercalate "," env.merchantIds)))
  let url : Option String :=
    match cfg.paramsToBeaconUrl with
    | some f => some (f trackingType data)
    | none =>
      match jsonStringify data with
      | some s => (encodeData s).map (beaconUrl trackingType)
      | none => none
  { state := st1, data := data, url := url,
    events := [(trackingType, data)],
    effects := match url with | some u => [.beacon u] | none => [] }

/-- The fields spread out of a data argument (`{ ...data, ... }`); only
object arguments contribute fields here — the typed API always passes
objects. -/
def jsSpreadFields : JsVal → List (String × JsVal)
  | .obj fs => fs
  | _ => []

/-- `trackCartEvent`: a `cartEvent` dispatch with the cart-event-type
discriminator added to the data. -/
def trackCartEvent (env : Env) (cfg : Config) (cartEventType : String) (data : JsVal)
    (st : TrackerState) : TrackOut :=
  track env cfg "cartEvent" (jsAssign (jsSpreadFields data) "cartEventType" (.str cartEventType)) st

/-- The outcome of one call through the tracker handle: the (possibly
reassigned) configuration, the state, the dispatched events, and the
effects. -/
structure StepOut where
  config : Config
  state : TrackerState
  events : List (String × JsVal)
  effects : List Effect

/-- Package a `track` outcome with the configuration in scope after the
call. -/
def ofTrack (cfg : Config) (t : TrackOut) : StepOut :=
  { config := cfg, state := t.state, events := t.events, effects := t.effects }

/-- The `view` tracker: `track(config, 'view', data)`. -/
def viewTracker (env : Env) (cfg : Config) (data : JsVal) (st : TrackerState) : StepOut :=
  ofTrack cfg (track env cfg "view" (jsSpreadFields data) st)

/-- The `addToCart` tracker: persist the serialised cart under
`paypal-cr-cart` for seven days (overwriting any previous entry), then
dispatch the cart event with the `addToCart` discriminator.  (A
non-serialisable `undefined` argument would be coerced to the string
`"undefined"` by the cookie write.) -/
def addToCartTracker (env : Env) (cfg : Config) (data : JsVal) (st : TrackerState) : StepOut :=
  let snapshot := (jsonStringify data).getD "undefined"
  let st2 : TrackerState :=
    { st with cookies := setCookieStore st.cookies "paypal-cr-cart" snapshot sevenDays }
  ofTrack cfg (trackCartEvent env cfg "addToCart" data st2)

/-- The `setCart` tracker. -/
def setCartTracker (env : Env) (cfg : Config) (data : JsVal) (st : TrackerState) : StepOut :=
  ofTrack cfg (trackCartEvent env cfg "setCart" data st)

/-- The `removeFromCart` tracker. -/
def removeFromCartTracker (env : Env) (cfg : Config) (data : JsVal) (st : TrackerState) :
    StepOut :=
  ofTrack cfg (trackCartEvent env cfg "removeFromCart" data st)

/-- The `purchase` tracker: `track(config, 'purchase', data)`. -/
def purchaseTracker (env : Env) (cfg : Config) (data : JsVal) (st : TrackerState) : StepOut :=
  ofTrack cfg (track env cfg "purchase" (jsSpreadFields data) st)

/-- The stored email/name a `setUser` call falls back to:
`((config && config.user) || {}).email` and likewise for `name`. -/
def storedEmail (cfg : Config) : JsVal :=
  match cfg.user with
  | some u => u.email
  | none => .undefined

/-- See `storedEmail`. -/
def storedName (cfg : Config) : JsVal :=
  match cfg.user with
  | some u => u.name
  | none => .undefined

/-- The `setUser` tracker: reassign the configuration with
`email: data.user.email || old email` and `name: data.user.name || old
name`, then dispatch a `setUser` event whose data is
`{ oldUserId: getUserIdCookie() }`, read before the dispatch. -/
def setUserTracker (env : Env) (cfg : Config) (data : JsVal) (st : TrackerState) : StepOut :=
  let newUser : JsUser :=
    { email := jsOr (jsField (jsField data "user") "email") (storedEmail cfg),
      name := jsOr (jsField (jsField data "user") "name") (storedName cfg) }
  let cfg2 : Config := { cfg with user := some newUser }
  ofTrack cfg2 (track env cfg2 "setUser"
    [("oldUserId", jsOfNullable (getUserIdCookie st))] st)

/-- The `setProperty` tracker: `config.property = { id: data.property.id }`,
no dispatch. -/
def setPropertyTracker (cfg : Config) (data : JsVal) : Config :=
  { cfg with property := some (jsField (jsField data "property") "id") }

/-- `jetloreTrackTypes` from the `Tracker` constructor. -/
def jetloreTrackTypes : List String :=
  ["view", "addToCart", "removeFromCart", "purchase", "search", "browse_section",
   "browse_promo", "addToWishList", "removeFromWishList", "addToFavorites",
   "removeFromFavorites", "track"]

/-- The tracker function names exposed on the handle. -/
def trackerNames : List String :=
  ["view", "addToCart", "setCart", "removeFromCart", "purchase", "setUser", "setProperty"]

/-- The jetlore initialisation object the `Tracker` constructor builds:
`cid`/`user_id`/`feed_id` from the credentials, and `div`/`lang` assigned
(to their input values) only under `if (!div)` / `if (!lang)` — that is,
only when the input value is falsy.  `none` means the field is never
assigned; `some v` means it is assigned the value `v`. -/
def buildJetloreConfig (jl : JetloreInput) : JetloreConfigOut :=
  { cid := jl.access_token, user_id := jl.user_id, feed_id := jl.feed_id,
    div := if jsTruthy jl.div then none else some jl.div,
    lang := if jsTruthy jl.lang then none else some jl.lang }

/-- The effect of the `Tracker` constructor itself: `JL.tracking(...)`
exactly when jetlore credentials are configured. -/
def trackerInitEffects (cfg : Config) : List Effect :=
  match cfg.jetlore with
  | some jl => [.jlTracking (buildJetloreConfig jl)]
  | none => []

/-- `getJetlorePayload` from the source (declared there with the `cosnt`
typo; its intended signature takes the tracking type and the event
payload).  The `switch` on the type reshapes the payload per type; a type
matching no case returns `undefined` (there is no default case). -/
def getJetlorePayload (type : JsVal) (payload : JsVal) : JsVal :=
  match type with
  | .str s =>
    if s = "addToCart" ∨ s = "removeFromCart" ∨ s = "purchase" then
      .obj [("deal_id", jsField payload "deal_id"), ("option_id", jsField payload "option_id"),
            ("count", jsField payload "count")]
    else if s = "search" then
      .obj [("text", jsField payload "text")]
    else if s = "view" ∨ s = "browse_section" then
      .obj [("name", jsField payload "name"), ("refinements", jsField payload "refinements")]
    else if s = "browse_promo" then
      .obj [("name", jsField payload "name"), ("id", jsField payload "id")]
    else if s = "addToWishList" ∨ s = "removeFromWishList" ∨ s = "addToFavorites"
        ∨ s = "removeFromFavorites" then
      jsField payload "payload"
    else if s = "track" then
      .obj [("event", jsField payload "event"), ("deal_id", jsField payload "deal_id"),
            ("count", jsField payload "count"), ("price", jsField payload "price"),
            ("title", jsField payload "title"), ("option_id", jsField payload "option_id"),
            ("text", jsField payload "text")]
    else .undefined
  | _ => .undefined

/-- Dispatch through the `trackers` table by name; an unknown name is a
no-op (`trackers[type]` is `undefined`, so the guarded call is skipped). -/
def dispatchTracker (env : Env) (cfg : Config) (type : String) (data : JsVal)
    (st : TrackerState) : StepOut :=
  if type = "view" then viewTracker env cfg data st
  else if type = "addToCart" then addToCartTracker env cfg data st
  else if type = "setCart" then setCartTracker env cfg data st
  else if type = "removeFromCart" then removeFromCartTracker env cfg data st
  else if type = "purchase" then purchaseTracker env cfg data st
  else if type = "setUser" then setUserTracker env cfg data st
  else if type = "setProperty" then
    { config := setPropertyTracker cfg data, state := st, events := [], effects := [] }
  else { config := cfg, state := st, events := [], effects := [] }

/-- `trackEvent(type, data)`, the handle's generic `track` function: when
jetlore is configured, the type is in the allow-list and the data is
truthy, the source forwards `JL.tracker[type](getJetlorePayload(data))` —
note the single argument: the data object lands in the type parameter and
the payload parameter is `undefined` — and then invokes `trackers[type]`
if it exists. -/
def trackEvent (env : Env) (cfg : Config) (type : String) (data : JsVal)
    (st : TrackerState) : StepOut :=
  let isJetloreType := if cfg.jetlore.isSome then jetloreTrackTypes.contains type else false
  let jl := if cfg.jetlore.isSome && isJetloreType && jsTruthy data then
      [Effect.jlCall type (getJetlorePayload data .undefined)]
    else []
  let rest := dispatchTracker env cfg type data st
  { rest with effects := jl ++ rest.effects }

/-- The stored (value, time-to-live) entry of a cookie name. -/
def getCookieEntry (st : List (String × String × Nat)) (name : String) : Option (String × Nat) :=
  match st with
  | [] => none
  | (n, v, t) :: rest => if n = name then some (v, t) else getCookieEntry rest name

/-- The `user.id` field of the payload of a call's single dispatched
event. -/
def eventUserId (out : StepOut) : JsVal :=
  match out.events with
  | [(_, d)] => jsField (jsField d "user") "id"
  | _ => .undefined

/-- Whether an effect is a call into the external jetlore client. -/
def isJetloreEffect : Effect → Bool
  | .beacon _ => false
  | .jlTracking _ => true
  | .jlCall _ _ => true

/-- What the identity handling of one tracker call must satisfy (the
property of claim C2): without a stored identity, exactly one fresh
identifier is drawn and persisted under `paypal-user-id` for one month,
and the dispatched payload's `user.id` is that identifier; with a stored
identity, nothing is generated, the stored identity entry is untouched,
and the payload's `user.id` is the stored identity. -/
def identityProps (env : Env) (st : TrackerState) (out : StepOut) : Prop :=
  (getUserIdCookie st = none →
    out.state.gen = st.gen + 1 ∧
    getCookieEntry out.state.cookies "paypal-user-id" = some (env.genId st.gen, oneMonthMs) ∧
    eventUserId out = .str (env.genId st.gen)) ∧
  (∀ v, getUserIdCookie st = some v →
    out.state.gen = st.gen ∧
    getCookieEntry out.state.cookies "paypal-user-id" = getCookieEntry st.cookies "paypal-user-id" ∧
    eventUserId out = .str v)

/-! ### Concrete instances used by the witness theorems -/

def sampleEnv : Env :=
  { genId := fun n => "uid" ++ toString n, clientId := "cid", merchantIds := ["m1", "m2"] }

def sampleState : TrackerState := { cookies := [], gen := 0 }

def sampleViewData : JsVal := .obj [("name", .str "shoes"), ("refinements", .arr [.str "red"])]

def sampleJetloreInput : JetloreInput :=
  { user_id := "u1", access_token := "tok", feed_id := "feed", div := .str "mydiv",
    lang := .undefined }

def sampleJetloreConfig : Config :=
  { user := some { email := .undefined, name := .undefined }, property := none,
    paramsToBeaconUrl := none,
    jetlore := some (JetloreInput.mk "u1" "tok" "feed" .undefined .undefined) }

def sampleDivConfig : Config :=
  { user := none, property := none, paramsToBeaconUrl := none,
    jetlore := some sampleJetloreInput }

def sampleOverride : String → JsVal → String := fun t _ => "custom://" ++ t

def sampleOverrideConfig : Config :=
  { user := none, property := none, paramsToBeaconUrl := some sampleOverride, jetlore := none }


/-! ## Theorems -/

theorem sizeVal_pos (v : JsVal) : 1 ≤ sizeVal v := by
  cases v <;> simp [sizeVal]

theorem skipWs_cons_of_neg {c : Char} (cs : List Char) (h : isJsonWs c = false) :
    skipWs (c :: cs) = c :: cs := by
  simp [skipWs, h]

theorem hexDigitVal_hexLowerDigit (n : Nat) (h : n < 16) :
    hexDigitVal (hexLowerDigit n) = some n := by
  interval_cases n <;> rfl

/-- Reading back an escaped string body: the parser undoes `escapeChar`
and stops at the terminating quote. -/
theorem parseStringBody_escape (s : List Char) (rest : List Char) :
    parseStringBody (s.flatMap escapeChar ++ ('"' :: rest)) = some (s, rest) := by
  induction s with
  | nil => simp [parseStringBody.eq_def]
  | cons c s ih =>
    show parseStringBody ((escapeChar c ++ s.flatMap escapeChar) ++ ('"' :: rest)) = _
    rw [List.append_assoc]
    by_cases h1 : c = '"'
    · subst h1
      rw [show escapeChar '"' = ['\\', '"'] from rfl]
      rw [List.cons_append, List.cons_append, List.nil_append]
      rw [parseStringBody.eq_def]
      simp [simpleUnescape, ih]
    · by_cases h2 : c = '\\'
      · subst h2
        rw [show escapeChar '\\' = ['\\', '\\'] from rfl]
        rw [List.cons_append, List.cons_append, List.nil_append]
        rw [parseStringBody.eq_def]
        simp [simpleUnescape, ih]
      · by_cases h3 : c.toNat = 8
        · have hc : escapeChar c = ['\\', 'b'] := by simp [escapeChar, h1, h2, h3]
          rw [hc, List.cons_append, List.cons_append, List.nil_append]
          rw [parseStringBody.eq_def]
          simp [simpleUnescape, ih]
          rw [← h3, Char.ofNat_toNat]
        · by_cases h4 : c.toNat = 9
          · have hc : escapeChar c = ['\\', 't'] := by simp [escapeChar, h1, h2, h3, h4]
            rw [hc, List.cons_append, List.cons_append, List.nil_append]
            rw [parseStringBody.eq_def]
            simp [simpleUnescape, ih]
            rw [show '\t' = Char.ofNat 9 from rfl, ← h4, Char.ofNat_toNat]
          · by_cases h5 : c.toNat = 10
            · have hc : escapeChar c = ['\\', 'n'] := by simp [escapeChar, h1, h2, h3, h4, h5]
              rw [hc, List.cons_append, List.cons_append, List.nil_append]
              rw [parseStringBody.eq_def]
              simp [simpleUnescape, ih]
              rw [show '\n' = Char.ofNat 10 from rfl, ← h5, Char.ofNat_toNat]
            · by_cases h6 : c.toNat = 12
              · have hc : escapeChar c = ['\\', 'f'] := by simp [escapeChar, h1, h2, h3, h4, h5, h6]
                rw [hc, List.cons_append, List.cons_append, List.nil_append]
                rw [parseStringBody.eq_def]
                simp [simpleUnescape, ih]
                rw [← h6, Char.ofNat_toNat]
              · by_cases h7 : c.toNat = 13
                · have hc : escapeChar c = ['\\', 'r'] := by
                    simp [escapeChar, h1, h2, h3, h4, h5, h6, h7]
                  rw [hc, List.cons_append, List.cons_append, List.nil_append]
                  rw [parseStringBody.eq_def]
                  simp [simpleUnescape, ih]
                  rw [← h7, Char.ofNat_toNat]
                · by_cases h8 : c.toNat < 32
                  · have hc : escapeChar c =
                        ['\\', 'u', '0', '0', hexLowerDigit (c.toNat / 16),
                          hexLowerDigit (c.toNat % 16)] := by
                      simp [escapeChar, h1, h2, h3, h4, h5, h6, h7, h8]
                    have hda : c.toNat / 16 < 16 := by omega
                    have hdb : c.toNat % 16 < 16 := by omega
                    have hxa := hexDigitVal_hexLowerDigit _ hda
                    have hxb := hexDigitVal_hexLowerDigit _ hdb
                    have hv : Nat.isValidChar c.toNat := Or.inl (by omega)
                    rw [hc]
                    rw [List.cons_append, List.cons_append, List.cons_append, List.cons_append,
                        List.cons_append, List.cons_append, List.nil_append]
                    rw [parseStringBody.eq_def]
                    simp [show hexDigitVal '0' = some 0 from rfl, hxa, hxb, ih]
                    have hn' : c.toNat / 16 * 16 + c.toNat % 16 = c.toNat := by omega
                    rw [hn']
                    exact ⟨hv, Char.ofNat_toNat c⟩
                  · have hc : escapeChar c = [c] := by
                      simp [escapeChar, h1, h2, h3, h4, h5, h6, h7, h8]
                    rw [hc, List.cons_append, List.nil_append]
                    rw [parseStringBody.eq_def]
                    simp [h1, h2, h8, ih]

/-- Every serialised value starts with a non-whitespace character that is
not a closing bracket. -/
theorem stringifyChars_head (v : JsVal) :
    ∃ c t, stringifyChars v = c :: t ∧ isJsonWs c = false ∧ c ≠ ']' ∧ c ≠ '}' := by
  cases v with
  | undefined => exact ⟨'n', ['u', 'l', 'l'], rfl, by decide, by decide, by decide⟩
  | null => exact ⟨'n', ['u', 'l', 'l'], rfl, by decide, by decide, by decide⟩
  | bool b =>
    cases b with
    | true => exact ⟨'t', ['r', 'u', 'e'], rfl, by decide, by decide, by decide⟩
    | false => exact ⟨'f', ['a', 'l', 's', 'e'], rfl, by decide, by decide, by decide⟩
  | str s =>
    exact ⟨'"', s.data.flatMap escapeChar ++ ['"'], rfl, by decide, by decide, by decide⟩
  | arr xs =>
    exact ⟨'[', stringifyElemsChars xs ++ [']'], rfl, by decide, by decide, by decide⟩
  | obj fs =>
    exact ⟨'{', stringifyFieldsChars fs ++ ['}'], rfl, by decide, by decide, by decide⟩


/-- Reading back a serialised value: on any value without `undefined`
(the form every parse result takes), parsing the serialisation with a
sufficient recursion budget returns the value and the unconsumed
suffix — stated simultaneously for values, array elements and object
fields, by induction on the budget. -/

theorem parse_stringify (f : Nat) :
    (∀ v rest, noUndefined v = true → sizeVal v ≤ f →
      parseVal f (stringifyChars v ++ rest) = some (v, rest)) ∧
    (∀ xs rest, xs ≠ [] → noUndefinedList xs = true → sizeList xs ≤ f →
      parseElems f (stringifyElemsChars xs ++ (']' :: rest)) = some (xs, rest)) ∧
    (∀ fs rest, fs ≠ [] → noUndefinedFields fs = true → sizeFields fs ≤ f →
      parseFields f (stringifyFieldsChars fs ++ ('}' :: rest)) = some (fs, rest)) := by
  induction f with
  | zero =>
    refine ⟨fun v rest hnu hs => absurd hs (by have := sizeVal_pos v; omega),
            fun xs rest hne hnu hs => ?_, fun fs rest hne hnu hs => ?_⟩
    · cases xs with
      | nil => exact absurd rfl hne
      | cons x xs => simp [sizeList] at hs
    · cases fs with
      | nil => exact absurd rfl hne
      | cons g fs => obtain ⟨k, v⟩ := g; simp [sizeFields] at hs
  | succ f ih =>
    obtain ⟨ihP, ihQ, ihR⟩ := ih
    refine ⟨fun v rest hnu hs => ?_, fun xs rest hne hnu hs => ?_,
            fun fs rest hne hnu hs => ?_⟩
    · cases v with
      | undefined => simp [noUndefined] at hnu
      | null =>
        show parseVal (f + 1) (['n', 'u', 'l', 'l'] ++ rest) = _
        simp [parseVal, skipWs, isJsonWs]
      | bool b =>
        cases b with
        | false =>
          show parseVal (f + 1) (['f', 'a', 'l', 's', 'e'] ++ rest) = _
          simp [parseVal, skipWs, isJsonWs]
        | true =>
          show parseVal (f + 1) (['t', 'r', 'u', 'e'] ++ rest) = _
          simp [parseVal, skipWs, isJsonWs]
      | str s =>
        show parseVal (f + 1) (('"' :: (s.data.flatMap escapeChar ++ ['"'])) ++ rest) = _
        rw [List.cons_append, List.append_assoc]
        rw [show ['"'] ++ rest = '"' :: rest from rfl]
        simp [parseVal, skipWs, isJsonWs, parseStringBody_escape]
      | arr xs =>
        cases xs with
        | nil =>
          show parseVal (f + 1) (['[', ']'] ++ rest) = _
          simp [parseVal, skipWs, isJsonWs]
        | cons x xs =>
          show parseVal (f + 1)
              ((('[' :: stringifyElemsChars (x :: xs)) ++ [']']) ++ rest) = _
          rw [List.append_assoc]
          rw [show [']'] ++ rest = ']' :: rest from rfl]
          rw [List.cons_append]
          obtain ⟨c0, t0, he, hw, hne1, hne2⟩ := stringifyChars_head x
          have hEe : ∃ t, stringifyElemsChars (x :: xs) = c0 :: t := by
            cases xs with
            | nil => exact ⟨t0, by simpa [stringifyElemsChars] using he⟩
            | cons y ys =>
              refine ⟨t0 ++ [','] ++ stringifyElemsChars (y :: ys), ?_⟩
              simp [stringifyElemsChars, he]
          obtain ⟨t, hEe⟩ := hEe
          have hQ := ihQ (x :: xs) rest (by simp)
            (by simpa [noUndefined] using hnu) (by simp [sizeVal] at hs ⊢; omega)
          simp only [parseVal]
          rw [skipWs_cons_of_neg _ (by decide)]
          rw [hEe, List.cons_append] at hQ ⊢
          simp [skipWs_cons_of_neg (t ++ (']' :: rest)) hw, hne1, hQ]
      | obj fs =>
        cases fs with
        | nil =>
          show parseVal (f + 1) (['{', '}'] ++ rest) = _
          simp [parseVal, skipWs, isJsonWs]
        | cons g fs =>
          obtain ⟨k, v⟩ := g
          show parseVal (f + 1)
              ((('{' :: stringifyFieldsChars ((k, v) :: fs)) ++ ['}']) ++ rest) = _
          rw [List.append_assoc]
          rw [show ['}'] ++ rest = '}' :: rest from rfl]
          rw [List.cons_append]
          have hFe : ∃ t, stringifyFieldsChars ((k, v) :: fs) = '"' :: t := by
            cases fs with
            | nil =>
              exact ⟨k.data.flatMap escapeChar ++ ['"'] ++ (':' :: stringifyChars v), by
                simp [stringifyFieldsChars, stringifyStringChars]⟩
            | cons g2 fs2 =>
              exact ⟨k.data.flatMap escapeChar ++ ['"'] ++ (':' :: stringifyChars v) ++ [','] ++
                stringifyFieldsChars (g2 :: fs2), by
                  simp [stringifyFieldsChars, stringifyStringChars]⟩
          obtain ⟨t, hFe⟩ := hFe
          have hR := ihR ((k, v) :: fs) rest (by simp)
            (by simpa [noUndefined] using hnu) (by simp [sizeVal] at hs ⊢; omega)
          simp only [parseVal]
          rw [skipWs_cons_of_neg _ (by decide)]
          rw [hFe, List.cons_append] at hR ⊢
          simp [skipWs_cons_of_neg (t ++ ('}' :: rest)) (by decide : isJsonWs '"' = false), hR]
    · cases xs with
      | nil => exact absurd rfl hne
      | cons x xs' =>
        cases xs' with
        | nil =>
          show parseElems (f + 1) (stringifyChars x ++ (']' :: rest)) = some ([x], rest)
          have hP := ihP x (']' :: rest)
            (by simpa [noUndefinedList] using hnu) (by simp [sizeList] at hs ⊢; omega)
          simp only [parseElems, hP]
          simp [skipWs, isJsonWs]
        | cons y ys =>
          show parseElems (f + 1)
              (((stringifyChars x ++ [',']) ++ stringifyElemsChars (y :: ys)) ++ (']' :: rest)) = _
          rw [List.append_assoc, List.append_assoc]
          rw [show ([','] ++ (stringifyElemsChars (y :: ys) ++ (']' :: rest)))
                = ',' :: (stringifyElemsChars (y :: ys) ++ (']' :: rest)) from rfl]
          have hnu1 : noUndefined x = true := by simp [noUndefinedList] at hnu; exact hnu.1
          have hnu2 : noUndefinedList (y :: ys) = true := by
            simp [noUndefinedList] at hnu ⊢; exact hnu.2
          have hP := ihP x (',' :: (stringifyElemsChars (y :: ys) ++ (']' :: rest)))
            hnu1 (by simp [sizeList] at hs ⊢; omega)
          have hQ2 := ihQ (y :: ys) rest (by simp) hnu2 (by simp [sizeList] at hs ⊢; omega)
          simp only [parseElems, hP]
          rw [skipWs_cons_of_neg _ (by decide)]
          simp [hQ2]
    · cases fs with
      | nil => exact absurd rfl hne
      | cons g fs' =>
        obtain ⟨k, v⟩ := g
        cases fs' with
        | nil =>
          show parseFields (f + 1)
              ((stringifyStringChars k ++ (':' :: stringifyChars v)) ++ ('}' :: rest)) = _
          rw [List.append_assoc, List.cons_append]
          show parseFields (f + 1)
              (('"' :: (k.data.flatMap escapeChar ++ ['"'])) ++
                (':' :: (stringifyChars v ++ ('}' :: rest)))) = _
          rw [List.cons_append, List.append_assoc]
          rw [show ['"'] ++ (':' :: (stringifyChars v ++ ('}' :: rest)))
                = '"' :: (':' :: (stringifyChars v ++ ('}' :: rest))) from rfl]
          have hnuv : noUndefined v = true := by simp [noUndefinedFields] at hnu; exact hnu
          have hP := ihP v ('}' :: rest) hnuv (by simp [sizeFields] at hs ⊢; omega)
          simp only [parseFields]
          rw [skipWs_cons_of_neg _ (by decide)]
          simp only [parseStringBody_escape]
          rw [skipWs_cons_of_neg _ (by decide)]
          simp [hP, skipWs, isJsonWs]
        | cons g2 fs2 =>
          show parseFields (f + 1)
              (((stringifyStringChars k ++ (':' :: stringifyChars v) ++ [',']) ++
                stringifyFieldsChars (g2 :: fs2)) ++ ('}' :: rest)) = _
          rw [List.append_assoc, List.append_assoc, List.append_assoc, List.cons_append]
          show parseFields (f + 1)
              (('"' :: (k.data.flatMap escapeChar ++ ['"'])) ++
                (':' :: (stringifyChars v ++ ([','] ++
                  (stringifyFieldsChars (g2 :: fs2) ++ ('}' :: rest)))))) = _
          rw [List.cons_append, List.append_assoc]
          rw [show ['"'] ++ (':' :: (stringifyChars v ++ ([','] ++
                (stringifyFieldsChars (g2 :: fs2) ++ ('}' :: rest)))))
              = '"' :: (':' :: (stringifyChars v ++ ([','] ++
                (stringifyFieldsChars (g2 :: fs2) ++ ('}' :: rest))))) from rfl]
          have hnuv : noUndefined v = true := by simp [noUndefinedFields] at hnu; exact hnu.1
          have hnuf : noUndefinedFields (g2 :: fs2) = true := by
            simp [noUndefinedFields] at hnu ⊢; exact hnu.2
          have hP := ihP v (',' :: (stringifyFieldsChars (g2 :: fs2) ++ ('}' :: rest)))
            hnuv (by simp [sizeFields] at hs ⊢; omega)
          have hR2 := ihR (g2 :: fs2) rest (by simp) hnuf
            (by simp [sizeFields] at hs ⊢; omega)
          simp only [parseFields]
          rw [skipWs_cons_of_neg _ (by decide)]
          simp only [parseStringBody_escape]
          rw [skipWs_cons_of_neg _ (by decide)]
          simp [hP, hR2, skipWs, isJsonWs]


/-- The serialisation of a value is at least as long as its structural
size, so an input-length recursion budget always suffices. -/

theorem size_le_len (n : Nat) :
    (∀ v, sizeVal v ≤ n → sizeVal v ≤ (stringifyChars v).length) ∧
    (∀ xs, xs ≠ [] → sizeList xs ≤ n → sizeList xs ≤ (stringifyElemsChars xs).length + 1) ∧
    (∀ fs, fs ≠ [] → sizeFields fs ≤ n → sizeFields fs ≤ (stringifyFieldsChars fs).length + 1) := by
  induction n with
  | zero =>
    refine ⟨fun v hs => absurd hs (by have := sizeVal_pos v; omega),
            fun xs hne hs => ?_, fun fs hne hs => ?_⟩
    · cases xs with
      | nil => exact absurd rfl hne
      | cons x xs => simp [sizeList] at hs
    · cases fs with
      | nil => exact absurd rfl hne
      | cons g fs => obtain ⟨k, v⟩ := g; simp [sizeFields] at hs
  | succ n ih =>
    obtain ⟨ihP, ihQ, ihR⟩ := ih
    refine ⟨fun v hs => ?_, fun xs hne hs => ?_, fun fs hne hs => ?_⟩
    · cases v with
      | undefined => simp [sizeVal, stringifyChars]
      | null => simp [sizeVal, stringifyChars]
      | bool b => cases b <;> simp [sizeVal, stringifyChars]
      | str s => simp [sizeVal, stringifyChars, stringifyStringChars]
      | arr xs =>
        cases xs with
        | nil => simp [sizeVal, sizeList, stringifyChars, stringifyElemsChars]
        | cons x xs =>
          have h := ihQ (x :: xs) (by simp) (by simp [sizeVal] at hs ⊢; omega)
          simp [sizeVal, stringifyChars] at h ⊢
          omega
      | obj fs =>
        cases fs with
        | nil => simp [sizeVal, sizeFields, stringifyChars, stringifyFieldsChars]
        | cons g fs =>
          have h := ihR (g :: fs) (by simp) (by simp [sizeVal] at hs ⊢; omega)
          simp [sizeVal, stringifyChars] at h ⊢
          omega
    · cases xs with
      | nil => exact absurd rfl hne
      | cons x xs' =>
        cases xs' with
        | nil =>
          have h := ihP x (by simp [sizeList] at hs ⊢; omega)
          simp [sizeList, stringifyElemsChars]
          omega
        | cons y ys =>
          have h1 := ihP x (by simp [sizeList] at hs ⊢; omega)
          have h2 := ihQ (y :: ys) (by simp) (by simp [sizeList] at hs ⊢; omega)
          simp [sizeList, stringifyElemsChars] at h2 ⊢
          omega
    · cases fs with
      | nil => exact absurd rfl hne
      | cons g fs' =>
        obtain ⟨k, v⟩ := g
        cases fs' with
        | nil =>
          have h := ihP v (by simp [sizeFields] at hs ⊢; omega)
          simp [sizeFields, stringifyFieldsChars, stringifyStringChars]
          omega
        | cons g2 fs2 =>
          have h1 := ihP v (by simp [sizeFields] at hs ⊢; omega)
          have h2 := ihR (g2 :: fs2) (by simp) (by simp [sizeFields] at hs ⊢; omega)
          simp [sizeFields, stringifyFieldsChars, stringifyStringChars] at h2 ⊢
          omega

theorem noUndefined_scrub_all (n : Nat) :
    (∀ v, sizeVal v ≤ n → noUndefined (scrub v) = true) ∧
    (∀ xs, sizeList xs ≤ n → noUndefinedList (scrubList xs) = true) ∧
    (∀ fs, sizeFields fs ≤ n → noUndefinedFields (scrubFields fs) = true) := by
  induction n with
  | zero =>
    refine ⟨fun v hs => absurd hs (by have := sizeVal_pos v; omega),
            fun xs hs => ?_, fun fs hs => ?_⟩
    · cases xs with
      | nil => simp [scrubList, noUndefinedList]
      | cons x xs => simp [sizeList] at hs
    · cases fs with
      | nil => simp [scrubFields, noUndefinedFields]
      | cons g fs => obtain ⟨k, v⟩ := g; simp [sizeFields] at hs
  | succ n ih =>
    obtain ⟨ihP, ihQ, ihR⟩ := ih
    refine ⟨fun v hs => ?_, fun xs hs => ?_, fun fs hs => ?_⟩
    · cases v with
      | undefined => simp [scrub, noUndefined]
      | null => simp [scrub, noUndefined]
      | bool b => simp [scrub, noUndefined]
      | str s => simp [scrub, noUndefined]
      | arr xs =>
        have h := ihQ xs (by simp [sizeVal] at hs ⊢; omega)
        simp [scrub, noUndefined, h]
      | obj fs =>
        have h := ihR fs (by simp [sizeVal] at hs ⊢; omega)
        simp [scrub, noUndefined, h]
    · cases xs with
      | nil => simp [scrubList, noUndefinedList]
      | cons x xs =>
        have h1 := ihP x (by simp [sizeList] at hs ⊢; omega)
        have h2 := ihQ xs (by simp [sizeList] at hs ⊢; omega)
        simp [scrubList, noUndefinedList, h1, h2]
    · cases fs with
      | nil => simp [scrubFields, noUndefinedFields]
      | cons g fs =>
        obtain ⟨k, v⟩ := g
        have h1 := ihP v (by simp [sizeFields] at hs ⊢; omega)
        have h2 := ihR fs (by simp [sizeFields] at hs ⊢; omega)
        cases v with
        | undefined => simpa [scrubFields] using h2
        | null => simp [scrubFields, noUndefinedFields, h2]; simpa [scrub] using h1
        | bool b => simp [scrubFields, noUndefinedFields, h2]; simpa [scrub] using h1
        | str s => simp [scrubFields, noUndefinedFields, h2]; simpa [scrub] using h1
        | arr xs2 => simp [scrubFields, noUndefinedFields, h2]; simpa [scrub] using h1
        | obj fs2 => simp [scrubFields, noUndefinedFields, h2]; simpa [scrub] using h1

theorem noUndefined_scrub (v : JsVal) : noUndefined (scrub v) = true :=
  (noUndefined_scrub_all (sizeVal v)).1 v le_rfl

theorem jsonParse_stringifyChars (v : JsVal) (h : noUndefined v = true) :
    jsonParse ⟨stringifyChars v⟩ = some v := by
  have hb := (size_le_len (sizeVal v)).1 v le_rfl
  have hp := (parse_stringify ((stringifyChars v).length + 1)).1 v [] h (by omega)
  rw [List.append_nil] at hp
  unfold jsonParse
  rw [show (String.mk (stringifyChars v)).length = (stringifyChars v).length from rfl]
  rw [show (String.mk (stringifyChars v)).data = stringifyChars v from rfl]
  rw [hp]
  simp [skipWs]

/-- Round trip through `JSON.stringify` and `JSON.parse`: any non-`undefined`
value serialises, and parsing the result yields its scrubbed form. -/
theorem jsonParse_jsonStringify (v : JsVal) (hv : v ≠ JsVal.undefined) :
    jsonStringify v = some ⟨stringifyChars (scrub v)⟩ ∧
      jsonParse ⟨stringifyChars (scrub v)⟩ = some (scrub v) := by
  refine ⟨?_, jsonParse_stringifyChars _ (noUndefined_scrub v)⟩
  cases v with
  | undefined => exact absurd rfl hv
  | null => rfl
  | bool b => rfl
  | str s => rfl
  | arr xs => rfl
  | obj fs => rfl

/-! ## Round trips of the encoding layers -/

theorem b64Index_b64Char (n : Nat) (h : n < 64) : b64Index (b64Char n) = some n :=
  (by decide : ∀ i : Fin 64, b64Index (b64Char i.val) = some i.val) ⟨n, h⟩

theorem b64Char_ne_pad (n : Nat) (h : n < 64) : b64Char n ≠ '=' :=
  (by decide : ∀ i : Fin 64, b64Char i.val ≠ '=') ⟨n, h⟩

theorem atobChars_btoaBytes (bs : List Nat) (h : ∀ b ∈ bs, b < 256) :
    atobChars (btoaBytes bs) = some bs := by
  induction bs using btoaBytes.induct with
  | case1 => rfl
  | case2 b1 =>
    have hb : b1 < 256 := h b1 (by simp)
    have i1 := b64Index_b64Char (b1 / 4) (by omega)
    have i2 := b64Index_b64Char (b1 % 4 * 16) (by omega)
    simp [btoaBytes, atobChars, i1, i2]
    omega
  | case3 b1 b2 =>
    have hb1 : b1 < 256 := h b1 (by simp)
    have hb2 : b2 < 256 := h b2 (by simp)
    have i1 := b64Index_b64Char (b1 / 4) (by omega)
    have i2 := b64Index_b64Char (b1 % 4 * 16 + b2 / 16) (by omega)
    have i3 := b64Index_b64Char (b2 % 16 * 4) (by omega)
    have ne3 := b64Char_ne_pad (b2 % 16 * 4) (by omega)
    simp [btoaBytes, atobChars, i1, i2, i3, ne3]
    constructor <;> omega
  | case4 b1 b2 b3 rest ih =>
    have hb1 : b1 < 256 := h b1 (by simp)
    have hb2 : b2 < 256 := h b2 (by simp)
    have hb3 : b3 < 256 := h b3 (by simp)
    have hrest : ∀ b ∈ rest, b < 256 := fun b hb => h b (by simp [hb])
    have i1 := b64Index_b64Char (b1 / 4) (by omega)
    have i2 := b64Index_b64Char (b1 % 4 * 16 + b2 / 16) (by omega)
    have i3 := b64Index_b64Char (b2 % 16 * 4 + b3 / 64) (by omega)
    have i4 := b64Index_b64Char (b3 % 64) (by omega)
    have ne3 := b64Char_ne_pad (b2 % 16 * 4 + b3 / 64) (by omega)
    have ne4 := b64Char_ne_pad (b3 % 64) (by omega)
    simp [btoaBytes, atobChars, i1, i2, i3, i4, ne3, ne4, ih hrest]
    refine ⟨by omega, by omega, by omega⟩

theorem atob_btoa (s : String) (h : s.data.all (fun c => c.toNat < 256) = true) :
    btoa s = some ⟨btoaBytes (s.data.map Char.toNat)⟩ ∧
      atob ⟨btoaBytes (s.data.map Char.toNat)⟩ = some s := by
  constructor
  · simp only [btoa, h, if_true]
  · unfold atob
    have hb : ∀ b ∈ s.data.map Char.toNat, b < 256 := by
      intro b hbmem
      obtain ⟨c, hc, rfl⟩ := List.mem_map.mp hbmem
      exact of_decide_eq_true (List.all_eq_true.mp h c hc)
    rw [show (String.mk (btoaBytes (s.data.map Char.toNat))).data
          = btoaBytes (s.data.map Char.toNat) from rfl]
    rw [atobChars_btoaBytes _ hb]
    have hmap : List.map (Char.ofNat ∘ Char.toNat) s.data = s.data := by
      simp only [Function.comp_def, Char.ofNat_toNat, List.map_id_fun', List.map_id']
    simp [List.map_map, hmap]


theorem hexDigitVal_hexUpperDigit (n : Nat) (h : n < 16) :
    hexDigitVal (hexUpperDigit n) = some n := by
  interval_cases n <;> rfl

theorem uriUnreserved_ne_pct {c : Char} (h : uriUnreserved c = true) : c ≠ '%' := by
  intro heq
  rw [heq] at h
  exact absurd h (by decide)

theorem pctByte_encode (b : Nat) (hb : b < 256) (r : List Char) :
    pctByte (pctEncodeByte b ++ r) = some (b, r) := by
  have i1 := hexDigitVal_hexUpperDigit (b / 16) (by omega)
  have i2 := hexDigitVal_hexUpperDigit (b % 16) (by omega)
  simp [pctEncodeByte, pctByte, i1, i2]
  omega

theorem decodeOne_escape (c : Char) (r : List Char) :
    decodeOne ((utf8Bytes c.toNat).flatMap pctEncodeByte ++ r) = some (c, r) := by
  have hval : Nat.isValidChar c.toNat := c.valid
  have hmax : c.toNat < 1114112 := by
    rcases hval with h | ⟨_, h⟩ <;> omega
  by_cases h1 : c.toNat < 128
  · rw [show utf8Bytes c.toNat = [c.toNat] from by simp [utf8Bytes, h1]]
    rw [show [c.toNat].flatMap pctEncodeByte = pctEncodeByte c.toNat ++ [] from by simp,
        List.append_nil]
    rw [show pctEncodeByte c.toNat ++ r
          = '%' :: (['%', hexUpperDigit (c.toNat / 16), hexUpperDigit (c.toNat % 16)].tail ++ r)
        from rfl]
    rw [decodeOne.eq_def]
    simp only [if_pos rfl, decodePct]
    rw [show ('%' : Char) :: (['%', hexUpperDigit (c.toNat / 16),
          hexUpperDigit (c.toNat % 16)].tail ++ r) = pctEncodeByte c.toNat ++ r from rfl]
    rw [pctByte_encode _ (by omega)]
    simp [h1, Char.ofNat_toNat]
  · by_cases h2 : c.toNat < 2048
    · rw [show utf8Bytes c.toNat = [192 + c.toNat / 64, 128 + c.toNat % 64] from by
        simp [utf8Bytes, h1, h2]]
      rw [show [192 + c.toNat / 64, 128 + c.toNat % 64].flatMap pctEncodeByte
            = pctEncodeByte (192 + c.toNat / 64) ++ pctEncodeByte (128 + c.toNat % 64) from by
          simp]
      rw [List.append_assoc]
      rw [show pctEncodeByte (192 + c.toNat / 64) ++ (pctEncodeByte (128 + c.toNat % 64) ++ r)
            = '%' :: (['%', hexUpperDigit ((192 + c.toNat / 64) / 16),
                hexUpperDigit ((192 + c.toNat / 64) % 16)].tail ++
              (pctEncodeByte (128 + c.toNat % 64) ++ r)) from rfl]
      rw [decodeOne.eq_def]
      simp only [if_pos rfl, decodePct]
      rw [show ('%' : Char) :: (['%', hexUpperDigit ((192 + c.toNat / 64) / 16),
            hexUpperDigit ((192 + c.toNat / 64) % 16)].tail ++
            (pctEncodeByte (128 + c.toNat % 64) ++ r))
          = pctEncodeByte (192 + c.toNat / 64) ++ (pctEncodeByte (128 + c.toNat % 64) ++ r)
          from rfl]
      rw [pctByte_encode _ (by omega)]
      have hc1 : ¬(192 + c.toNat / 64 < 128) := by omega
      have hc2 : ¬(192 + c.toNat / 64 < 192) := by omega
      have hc3 : 192 + c.toNat / 64 < 224 := by omega
      simp only [hc1, if_false, hc2, hc3, if_true, decodeEsc2]
      rw [pctByte_encode _ (by omega)]
      have hc4 : 128 ≤ 128 + c.toNat % 64 ∧ 128 + c.toNat % 64 < 192 := by omega
      simp only [hc4, and_self, if_true]
      have hn : (192 + c.toNat / 64 - 192) * 64 + (128 + c.toNat % 64 - 128) = c.toNat := by
        omega
      simp only [hn]
      simp [show 128 ≤ c.toNat from by omega, Char.ofNat_toNat]
    · by_cases h3 : c.toNat < 65536
      · rw [show utf8Bytes c.toNat
              = [224 + c.toNat / 4096, 128 + c.toNat / 64 % 64, 128 + c.toNat % 64] from by
            simp [utf8Bytes, h1, h2, h3]]
        rw [show [224 + c.toNat / 4096, 128 + c.toNat / 64 % 64,
              128 + c.toNat % 64].flatMap pctEncodeByte
              = pctEncodeByte (224 + c.toNat / 4096) ++ (pctEncodeByte (128 + c.toNat / 64 % 64)
                ++ pctEncodeByte (128 + c.toNat % 64)) from by simp]
        rw [List.append_assoc, List.append_assoc]
        rw [show pctEncodeByte (224 + c.toNat / 4096)
              ++ (pctEncodeByte (128 + c.toNat / 64 % 64) ++ (pctEncodeByte (128 + c.toNat % 64) ++ r))
              = '%' :: (hexUpperDigit ((224 + c.toNat / 4096) / 16)
                :: hexUpperDigit ((224 + c.toNat / 4096) % 16)
                :: (pctEncodeByte (128 + c.toNat / 64 % 64)
                  ++ (pctEncodeByte (128 + c.toNat % 64) ++ r))) from rfl]
        rw [decodeOne.eq_def]
        simp only [if_pos rfl, decodePct]
        rw [show ('%' : Char) :: (hexUpperDigit ((224 + c.toNat / 4096) / 16)
              :: hexUpperDigit ((224 + c.toNat / 4096) % 16)
              :: (pctEncodeByte (128 + c.toNat / 64 % 64)
                ++ (pctEncodeByte (128 + c.toNat % 64) ++ r)))
            = pctEncodeByte (224 + c.toNat / 4096)
              ++ (pctEncodeByte (128 + c.toNat / 64 % 64)
                ++ (pctEncodeByte (128 + c.toNat % 64) ++ r)) from rfl]
        rw [pctByte_encode _ (by omega)]
        have hc1 : ¬(224 + c.toNat / 4096 < 128) := by omega
        have hc2 : ¬(224 + c.toNat / 4096 < 192) := by omega
        have hc3 : ¬(224 + c.toNat / 4096 < 224) := by omega
        have hc4 : 224 + c.toNat / 4096 < 240 := by omega
        have p1 := pctByte_encode (128 + c.toNat / 64 % 64) (by omega)
        have p2 := pctByte_encode (128 + c.toNat % 64) (by omega)
        simp only [hc1, if_false, hc2, hc3, hc4, if_true, decodeEsc3, p1, p2]
        have hc5 : (128 ≤ 128 + c.toNat / 64 % 64 ∧ 128 + c.toNat / 64 % 64 < 192)
            ∧ (128 ≤ 128 + c.toNat % 64 ∧ 128 + c.toNat % 64 < 192) := by omega
        simp only [hc5, and_self, if_true]
        have hn : (224 + c.toNat / 4096 - 224) * 4096 + (128 + c.toNat / 64 % 64 - 128) * 64
            + (128 + c.toNat % 64 - 128) = c.toNat := by omega
        simp only [hn]
        simp [show 2048 ≤ c.toNat from by omega, hval, Char.ofNat_toNat]
      · rw [show utf8Bytes c.toNat
              = [240 + c.toNat / 262144, 128 + c.toNat / 4096 % 64, 128 + c.toNat / 64 % 64,
                 128 + c.toNat % 64] from by simp [utf8Bytes, h1, h2, h3]]
        rw [show [240 + c.toNat / 262144, 128 + c.toNat / 4096 % 64, 128 + c.toNat / 64 % 64,
              128 + c.toNat % 64].flatMap pctEncodeByte
              = pctEncodeByte (240 + c.toNat / 262144) ++ (pctEncodeByte (128 + c.toNat / 4096 % 64)
                ++ (pctEncodeByte (128 + c.toNat / 64 % 64)
                  ++ pctEncodeByte (128 + c.toNat % 64))) from by simp]
        rw [List.append_assoc, List.append_assoc, List.append_assoc]
        rw [show pctEncodeByte (240 + c.toNat / 262144)
              ++ (pctEncodeByte (128 + c.toNat / 4096 % 64)
                ++ (pctEncodeByte (128 + c.toNat / 64 % 64)
                  ++ (pctEncodeByte (128 + c.toNat % 64) ++ r)))
              = '%' :: (hexUpperDigit ((240 + c.toNat / 262144) / 16)
                :: hexUpperDigit ((240 + c.toNat / 262144) % 16)
                :: (pctEncodeByte (128 + c.toNat / 4096 % 64)
                  ++ (pctEncodeByte (128 + c.toNat / 64 % 64)
                    ++ (pctEncodeByte (128 + c.toNat % 64) ++ r)))) from rfl]
        rw [decodeOne.eq_def]
        simp only [if_pos rfl, decodePct]
        rw [show ('%' : Char) :: (hexUpperDigit ((240 + c.toNat / 262144) / 16)
              :: hexUpperDigit ((240 + c.toNat / 262144) % 16)
              :: (pctEncodeByte (128 + c.toNat / 4096 % 64)
                ++ (pctEncodeByte (128 + c.toNat / 64 % 64)
                  ++ (pctEncodeByte (128 + c.toNat % 64) ++ r))))
            = pctEncodeByte (240 + c.toNat / 262144)
              ++ (pctEncodeByte (128 + c.toNat / 4096 % 64)
                ++ (pctEncodeByte (128 + c.toNat / 64 % 64)
                  ++ (pctEncodeByte (128 + c.toNat % 64) ++ r))) from rfl]
        rw [pctByte_encode _ (by omega)]
        have hc1 : ¬(240 + c.toNat / 262144 < 128) := by omega
        have hc2 : ¬(240 + c.toNat / 262144 < 192) := by omega
        have hc3 : ¬(240 + c.toNat / 262144 < 224) := by omega
        have hc4 : ¬(240 + c.toNat / 262144 < 240) := by omega
        have hc5 : 240 + c.toNat / 262144 < 248 := by omega
        have p1 := pctByte_encode (128 + c.toNat / 4096 % 64) (by omega)
        have p2 := pctByte_encode (128 + c.toNat / 64 % 64) (by omega)
        have p3 := pctByte_encode (128 + c.toNat % 64) (by omega)
        simp only [hc1, if_false, hc2, hc3, hc4, hc5, if_true, decodeEsc4, p1, p2, p3]
        have hc6 : (128 ≤ 128 + c.toNat / 4096 % 64 ∧ 128 + c.toNat / 4096 % 64 < 192)
            ∧ (128 ≤ 128 + c.toNat / 64 % 64 ∧ 128 + c.toNat / 64 % 64 < 192)
            ∧ (128 ≤ 128 + c.toNat % 64 ∧ 128 + c.toNat % 64 < 192) := by omega
        simp only [hc6, and_self, if_true]
        have hn : (240 + c.toNat / 262144 - 240) * 262144 + (128 + c.toNat / 4096 % 64 - 128) * 4096
            + (128 + c.toNat / 64 % 64 - 128) * 64 + (128 + c.toNat % 64 - 128) = c.toNat := by
          omega
        simp only [hn]
        simp [show 65536 ≤ c.toNat from by omega, hmax, Char.ofNat_toNat]

theorem decodeOne_unreserved (c : Char) (h : uriUnreserved c = true) (r : List Char) :
    decodeOne (c :: r) = some (c, r) := by
  rw [decodeOne.eq_def]
  simp [uriUnreserved_ne_pct h]

theorem decodeOne_encodeChar (c : Char) (r : List Char) :
    decodeOne ((if uriUnreserved c then [c]
      else (utf8Bytes c.toNat).flatMap pctEncodeByte) ++ r) = some (c, r) := by
  by_cases hu : uriUnreserved c = true
  · rw [if_pos hu, List.cons_append, List.nil_append]
    exact decodeOne_unreserved c hu r
  · rw [if_neg hu]
    exact decodeOne_escape c r

theorem encodeChar_ne_nil (c : Char) :
    (if uriUnreserved c then [c] else (utf8Bytes c.toNat).flatMap pctEncodeByte) ≠ [] := by
  by_cases hu : uriUnreserved c = true
  · simp [hu]
  · simp only [if_neg hu]
    by_cases h1 : c.toNat < 128
    · simp [utf8Bytes, h1, pctEncodeByte]
    · by_cases h2 : c.toNat < 2048
      · simp [utf8Bytes, h1, h2, pctEncodeByte]
      · by_cases h3 : c.toNat < 65536
        · simp [utf8Bytes, h1, h2, h3, pctEncodeByte]
        · simp [utf8Bytes, h1, h2, h3, pctEncodeByte]

theorem decodeLoop_encode (cs : List Char) :
    ∀ f, cs.length ≤ f →
      decodeLoop f (cs.flatMap (fun c => if uriUnreserved c then [c]
        else (utf8Bytes c.toNat).flatMap pctEncodeByte)) = some cs := by
  induction cs with
  | nil => intro f _; cases f <;> rfl
  | cons c cs ih =>
    intro f hf
    cases f with
    | zero => simp at hf
    | succ f =>
      rw [List.flatMap_cons]
      cases hec : (if uriUnreserved c then [c]
          else (utf8Bytes c.toNat).flatMap pctEncodeByte) with
      | nil => exact absurd hec (encodeChar_ne_nil c)
      | cons a t =>
        rw [List.cons_append]
        show decodeLoop (f + 1) (a :: (t ++ _)) = _
        simp only [decodeLoop]
        rw [show a :: (t ++ cs.flatMap (fun c => if uriUnreserved c then [c]
              else (utf8Bytes c.toNat).flatMap pctEncodeByte))
            = (a :: t) ++ cs.flatMap (fun c => if uriUnreserved c then [c]
              else (utf8Bytes c.toNat).flatMap pctEncodeByte) from rfl]
        rw [← hec, decodeOne_encodeChar]
        simp only [ih f (by simp at hf; omega)]
        rfl

theorem length_le_encode (cs : List Char) :
    cs.length ≤ (cs.flatMap (fun c => if uriUnreserved c then [c]
      else (utf8Bytes c.toNat).flatMap pctEncodeByte)).length := by
  induction cs with
  | nil => simp
  | cons c cs ih =>
    rw [List.flatMap_cons, List.length_append, List.length_cons]
    have : 1 ≤ (if uriUnreserved c then [c]
        else (utf8Bytes c.toNat).flatMap pctEncodeByte).length := by
      cases hec : (if uriUnreserved c then [c]
          else (utf8Bytes c.toNat).flatMap pctEncodeByte) with
      | nil => exact absurd hec (encodeChar_ne_nil c)
      | cons a t => simp
    omega

/-- Round trip of `encodeURIComponent` through `decodeURIComponent`. -/
theorem decodeURIComponent_encodeURIComponent (s : String) :
    decodeURIComponent (encodeURIComponent s) = some s := by
  unfold decodeURIComponent encodeURIComponent
  rw [show (String.mk (s.data.flatMap (fun c => if uriUnreserved c then [c]
        else (utf8Bytes c.toNat).flatMap pctEncodeByte))).data
      = s.data.flatMap (fun c => if uriUnreserved c then [c]
        else (utf8Bytes c.toNat).flatMap pctEncodeByte) from rfl]
  rw [show (String.mk (s.data.flatMap (fun c => if uriUnreserved c then [c]
        else (utf8Bytes c.toNat).flatMap pctEncodeByte))).length
      = (s.data.flatMap (fun c => if uriUnreserved c then [c]
        else (utf8Bytes c.toNat).flatMap pctEncodeByte)).length from rfl]
  rw [decodeLoop_encode s.data _ (length_le_encode s.data)]
  rfl


/-! ## The component theorems -/


theorem jsLookup_jsAssign_self (fs : List (String × JsVal)) (k : String) (v : JsVal) :
    jsLookup (jsAssign fs k v) k = some v := by
  induction fs with
  | nil => simp [jsAssign, jsLookup]
  | cons g fs ih =>
    obtain ⟨k', v'⟩ := g
    by_cases h : k' = k <;> simp [jsAssign, jsLookup, h, ih]

theorem jsLookup_jsAssign_ne (fs : List (String × JsVal)) (k k' : String) (v : JsVal)
    (h : k' ≠ k) : jsLookup (jsAssign fs k' v) k = jsLookup fs k := by
  induction fs with
  | nil => simp [jsAssign, jsLookup, h]
  | cons g fs ih =>
    obtain ⟨k2, v2⟩ := g
    by_cases h2 : k2 = k'
    · subst h2
      simp [jsAssign, jsLookup, h]
    · simp only [jsAssign, if_neg h2]
      by_cases h3 : k2 = k <;> simp [jsLookup, h3, ih]

theorem getCookieStore_set_self (c : List (String × String × Nat)) (n v : String) (t : Nat) :
    getCookieStore (setCookieStore c n v t) n = some v := by
  induction c with
  | nil => simp [setCookieStore, getCookieStore]
  | cons e c ih =>
    obtain ⟨n2, v2, t2⟩ := e
    by_cases h : n2 = n <;> simp [setCookieStore, getCookieStore, h, ih]

theorem getCookieEntry_set_self (c : List (String × String × Nat)) (n v : String) (t : Nat) :
    getCookieEntry (setCookieStore c n v t) n = some (v, t) := by
  induction c with
  | nil => simp [setCookieStore, getCookieEntry]
  | cons e c ih =>
    obtain ⟨n2, v2, t2⟩ := e
    by_cases h : n2 = n <;> simp [setCookieStore, getCookieEntry, h, ih]

theorem getCookieStore_set_ne (c : List (String × String × Nat)) (n n' v : String) (t : Nat)
    (h : n' ≠ n) : getCookieStore (setCookieStore c n' v t) n = getCookieStore c n := by
  induction c with
  | nil => simp [setCookieStore, getCookieStore, h]
  | cons e c ih =>
    obtain ⟨n2, v2, t2⟩ := e
    by_cases h2 : n2 = n'
    · subst h2
      simp [setCookieStore, getCookieStore, h]
    · simp only [setCookieStore, if_neg h2]
      by_cases h3 : n2 = n <;> simp [getCookieStore, h3, ih]

theorem getCookieEntry_set_ne (c : List (String × String × Nat)) (n n' v : String) (t : Nat)
    (h : n' ≠ n) : getCookieEntry (setCookieStore c n' v t) n = getCookieEntry c n := by
  induction c with
  | nil => simp [setCookieStore, getCookieEntry, h]
  | cons e c ih =>
    obtain ⟨n2, v2, t2⟩ := e
    by_cases h2 : n2 = n'
    · subst h2
      simp [setCookieStore, getCookieEntry, h]
    · simp only [setCookieStore, if_neg h2]
      by_cases h3 : n2 = n <;> simp [getCookieEntry, h3, ih]

theorem track_data_eq (env : Env) (cfg : Config) (type : String)
    (td : List (String × JsVal)) (st : TrackerState) :
    (track env cfg type td st).data
      = JsVal.obj (jsAssign (jsAssign (jsAssign (jsAssign (jsAssign td
          "user" (JsVal.obj (jsAssign (userFields cfg.user) "id"
            (jsOfNullable (getUserIdCookie (track env cfg type td st).state)))))
          "property" (propertyVal cfg.property))
          "trackingType" (.str type))
          "clientId" (.str env.clientId))
          "merchantId" (.str (String.intercalate "," env.merchantIds))) := rfl

theorem track_field_user (env : Env) (cfg : Config) (type : String)
    (td : List (String × JsVal)) (st : TrackerState) :
    jsField (track env cfg type td st).data "user"
      = JsVal.obj (jsAssign (userFields cfg.user) "id"
          (jsOfNullable (getUserIdCookie (track env cfg type td st).state))) := by
  rw [track_data_eq]
  show (jsLookup _ _).getD _ = _
  rw [jsLookup_jsAssign_ne _ _ _ _ (by decide), jsLookup_jsAssign_ne _ _ _ _ (by decide),
      jsLookup_jsAssign_ne _ _ _ _ (by decide), jsLookup_jsAssign_ne _ _ _ _ (by decide),
      jsLookup_jsAssign_self]
  rfl

theorem track_field_property (env : Env) (cfg : Config) (type : String)
    (td : List (String × JsVal)) (st : TrackerState) :
    jsField (track env cfg type td st).data "property" = propertyVal cfg.property := by
  rw [track_data_eq]
  show (jsLookup _ _).getD _ = _
  rw [jsLookup_jsAssign_ne _ _ _ _ (by decide), jsLookup_jsAssign_ne _ _ _ _ (by decide),
      jsLookup_jsAssign_ne _ _ _ _ (by decide), jsLookup_jsAssign_self]
  rfl

theorem track_field_trackingType (env : Env) (cfg : Config) (type : String)
    (td : List (String × JsVal)) (st : TrackerState) :
    jsField (track env cfg type td st).data "trackingType" = .str type := by
  rw [track_data_eq]
  show (jsLookup _ _).getD _ = _
  rw [jsLookup_jsAssign_ne _ _ _ _ (by decide), jsLookup_jsAssign_ne _ _ _ _ (by decide),
      jsLookup_jsAssign_self]
  rfl

theorem track_field_td (env : Env) (cfg : Config) (type : String)
    (td : List (String × JsVal)) (st : TrackerState) (k : String)
    (hk1 : k ≠ "user") (hk2 : k ≠ "property") (hk3 : k ≠ "trackingType")
    (hk4 : k ≠ "clientId") (hk5 : k ≠ "merchantId") :
    jsField (track env cfg type td st).data k = (jsLookup td k).getD .undefined := by
  rw [track_data_eq]
  show (jsLookup _ _).getD _ = _
  rw [jsLookup_jsAssign_ne _ _ _ _ (Ne.symm hk5), jsLookup_jsAssign_ne _ _ _ _ (Ne.symm hk4),
      jsLookup_jsAssign_ne _ _ _ _ (Ne.symm hk3), jsLookup_jsAssign_ne _ _ _ _ (Ne.symm hk2),
      jsLookup_jsAssign_ne _ _ _ _ (Ne.symm hk1)]

theorem track_state_eq (env : Env) (cfg : Config) (type : String)
    (td : List (String × JsVal)) (st : TrackerState) :
    (track env cfg type td st).state
      = if (getUserIdCookie st).isSome then st else setRandomUserIdCookie env st := rfl

theorem track_events_eq (env : Env) (cfg : Config) (type : String)
    (td : List (String × JsVal)) (st : TrackerState) :
    (track env cfg type td st).events = [(type, (track env cfg type td st).data)] := rfl

theorem track_effects_eq (env : Env) (cfg : Config) (type : String)
    (td : List (String × JsVal)) (st : TrackerState) :
    (track env cfg type td st).effects
      = match (track env cfg type td st).url with
        | some u => [.beacon u]
        | none => [] := rfl

theorem getUserIdCookie_set (env : Env) (st : TrackerState) (h : env.genId st.gen ≠ "") :
    getUserIdCookie (setRandomUserIdCookie env st) = some (env.genId st.gen) := by
  simp [getUserIdCookie, setRandomUserIdCookie, getCookieStore_set_self, h]

theorem track_identity (env : Env) (cfg : Config) (type : String)
    (td : List (String × JsVal)) (st : TrackerState) (hgen : env.genId st.gen ≠ "") :
    (getUserIdCookie st = none →
      (track env cfg type td st).state.gen = st.gen + 1 ∧
      getCookieEntry (track env cfg type td st).state.cookies "paypal-user-id"
        = some (env.genId st.gen, oneMonthMs) ∧
      jsField (jsField (track env cfg type td st).data "user") "id"
        = .str (env.genId st.gen)) ∧
    (∀ v, getUserIdCookie st = some v →
      (track env cfg type td st).state = st ∧
      jsField (jsField (track env cfg type td st).data "user") "id" = .str v) := by
  constructor
  · intro h
    have hstate : (track env cfg type td st).state = setRandomUserIdCookie env st := by
      rw [track_state_eq, h]
      rfl
    refine ⟨by rw [hstate]; rfl, ?_, ?_⟩
    · rw [hstate]
      exact getCookieEntry_set_self _ _ _ _
    · rw [track_field_user]
      show (jsLookup _ _).getD _ = _
      rw [jsLookup_jsAssign_self]
      rw [hstate, getUserIdCookie_set env st hgen]
      rfl
  · intro v hv
    have hstate : (track env cfg type td st).state = st := by
      rw [track_state_eq, hv]
      rfl
    refine ⟨hstate, ?_⟩
    rw [track_field_user]
    show (jsLookup _ _).getD _ = _
    rw [jsLookup_jsAssign_self, hstate, hv]
    rfl

theorem eventUserId_ofTrack (cfg : Config) (t : TrackOut) (type : String)
    (d : JsVal) (h : t.events = [(type, d)]) :
    eventUserId (ofTrack cfg t) = jsField (jsField d "user") "id" := by
  simp [eventUserId, ofTrack, h]

theorem identityProps_ofTrack (env : Env) (st : TrackerState) (cfg cfg2 : Config)
    (type : String) (td : List (String × JsVal)) (hgen : env.genId st.gen ≠ "") :
    identityProps env st (ofTrack cfg2 (track env cfg type td st)) := by
  obtain ⟨h1, h2⟩ := track_identity env cfg type td st hgen
  constructor
  · intro h
    obtain ⟨a, b, c'⟩ := h1 h
    refine ⟨a, b, ?_⟩
    rw [eventUserId_ofTrack cfg2 _ type _ (track_events_eq env cfg type td st)]
    exact c'
  · intro v hv
    obtain ⟨a, b⟩ := h2 v hv
    refine ⟨by rw [show (ofTrack cfg2 (track env cfg type td st)).state
        = (track env cfg type td st).state from rfl, a], ?_, ?_⟩
    · rw [show (ofTrack cfg2 (track env cfg type td st)).state
        = (track env cfg type td st).state from rfl, a]
    · rw [eventUserId_ofTrack cfg2 _ type _ (track_events_eq env cfg type td st)]
      exact b

theorem getUserIdCookie_cartSet (st : TrackerState) (s : String) :
    getUserIdCookie
      { st with cookies := setCookieStore st.cookies "paypal-cr-cart" s sevenDays }
      = getUserIdCookie st := by
  simp [getUserIdCookie, getCookieStore_set_ne _ _ _ _ _ (by decide : ("paypal-cr-cart" : String) ≠ "paypal-user-id")]

theorem identityProps_addToCart (env : Env) (st : TrackerState) (cfg : Config)
    (data : JsVal) (hgen : env.genId st.gen ≠ "") :
    identityProps env st (addToCartTracker env cfg data st) := by
  unfold addToCartTracker trackCartEvent
  set s := (jsonStringify data).getD "undefined" with hs
  set st2 : TrackerState :=
    { st with cookies := setCookieStore st.cookies "paypal-cr-cart" s sevenDays } with hst2
  have hid : getUserIdCookie st2 = getUserIdCookie st := getUserIdCookie_cartSet st s
  have hgen2 : env.genId st2.gen ≠ "" := hgen
  obtain ⟨h1, h2⟩ := track_identity env cfg "cartEvent"
    (jsAssign (jsSpreadFields data) "cartEventType" (.str "addToCart")) st2 hgen2
  constructor
  · intro h
    obtain ⟨a, b, c'⟩ := h1 (by rw [hid]; exact h)
    refine ⟨a, b, ?_⟩
    rw [eventUserId_ofTrack cfg _ "cartEvent" _ (track_events_eq env cfg "cartEvent" _ st2)]
    exact c'
  · intro v hv
    obtain ⟨a, b⟩ := h2 v (by rw [hid]; exact hv)
    refine ⟨?_, ?_, ?_⟩
    · rw [show (ofTrack cfg (track env cfg "cartEvent"
          (jsAssign (jsSpreadFields data) "cartEventType" (.str "addToCart")) st2)).state
        = (track env cfg "cartEvent"
          (jsAssign (jsSpreadFields data) "cartEventType" (.str "addToCart")) st2).state
        from rfl, a]
    · rw [show (ofTrack cfg (track env cfg "cartEvent"
          (jsAssign (jsSpreadFields data) "cartEventType" (.str "addToCart")) st2)).state
        = (track env cfg "cartEvent"
          (jsAssign (jsSpreadFields data) "cartEventType" (.str "addToCart")) st2).state
        from rfl, a]
      rw [show st2.cookies = setCookieStore st.cookies "paypal-cr-cart" s sevenDays from rfl]
      exact getCookieEntry_set_ne _ _ _ _ _ (by decide)
    · rw [eventUserId_ofTrack cfg _ "cartEvent" _ (track_events_eq env cfg "cartEvent" _ st2)]
      exact b

/-- C2: for every call to the view, purchase, or cart-event functions, if no
identity cookie is present, exactly one new identifier is generated and
persisted under `paypal-user-id` with the one-month expiry before the
payload's user field is built, and the payload's `user.id` equals the
persisted identifier; if an identity cookie is present, no identifier is
generated and the stored identity is untouched (idempotence). -/
theorem trackers_ensure_identity (env : Env) (cfg : Config) (data : JsVal)
    (st : TrackerState) (hgen : env.genId st.gen ≠ "") :
    identityProps env st (viewTracker env cfg data st) ∧
    identityProps env st (purchaseTracker env cfg data st) ∧
    identityProps env st (addToCartTracker env cfg data st) ∧
    identityProps env st (setCartTracker env cfg data st) ∧
    identityProps env st (removeFromCartTracker env cfg data st) :=
  ⟨identityProps_ofTrack env st cfg cfg "view" (jsSpreadFields data) hgen,
   identityProps_ofTrack env st cfg cfg "purchase" (jsSpreadFields data) hgen,
   identityProps_addToCart env st cfg data hgen,
   identityProps_ofTrack env st cfg cfg "cartEvent"
     (jsAssign (jsSpreadFields data) "cartEventType" (.str "setCart")) hgen,
   identityProps_ofTrack env st cfg cfg "cartEvent"
     (jsAssign (jsSpreadFields data) "cartEventType" (.str "removeFromCart")) hgen⟩

/-- C4: `setUser` prefers the supplied email/name and falls back to the
previously stored values (in particular, a supplied name with no email
preserves the stored email and vice versa), and dispatches exactly one
`setUser` event whose payload carries the identity read from storage
before the dispatch as `oldUserId`. -/
theorem setUser_updates_and_dispatches (env : Env) (cfg : Config) (data : JsVal)
    (st : TrackerState) :
    ∃ u d,
      (setUserTracker env cfg data st).config.user = some u ∧
      u.email = jsOr (jsField (jsField data "user") "email") (storedEmail cfg) ∧
      u.name = jsOr (jsField (jsField data "user") "name") (storedName cfg) ∧
      (jsField (jsField data "user") "email" = .undefined → u.email = storedEmail cfg) ∧
      (jsField (jsField data "user") "name" = .undefined → u.name = storedName cfg) ∧
      (setUserTracker env cfg data st).events = [("setUser", d)] ∧
      jsField d "oldUserId" = jsOfNullable (getUserIdCookie st) := by
  refine ⟨⟨jsOr (jsField (jsField data "user") "email") (storedEmail cfg),
           jsOr (jsField (jsField data "user") "name") (storedName cfg)⟩,
          (track env { cfg with user := some ⟨jsOr (jsField (jsField data "user") "email")
              (storedEmail cfg), jsOr (jsField (jsField data "user") "name") (storedName cfg)⟩ }
            "setUser" [("oldUserId", jsOfNullable (getUserIdCookie st))] st).data,
          rfl, rfl, rfl, ?_, ?_, rfl, ?_⟩
  · intro h
    rw [h]
    rfl
  · intro h
    rw [h]
    rfl
  · rw [track_field_td _ _ _ _ _ _ (by decide) (by decide) (by decide) (by decide) (by decide)]
    simp [jsLookup]

theorem track_url_eq (env : Env) (cfg : Config) (type : String)
    (td : List (String × JsVal)) (st : TrackerState) :
    (track env cfg type td st).url
      = match cfg.paramsToBeaconUrl with
        | some f => some (f type (track env cfg type td st).data)
        | none =>
          match jsonStringify (track env cfg type td st).data with
          | some s => (encodeData s).map (beaconUrl type)
          | none => none := rfl

/-- C5: when a `paramsToBeaconUrl` override is configured, the beacon URL
is exactly the override's return value on the tracking type and merged
payload, and the default template is not used. -/
theorem paramsToBeaconUrl_override (env : Env) (cfg : Config) (type : String)
    (td : List (String × JsVal)) (st : TrackerState) (f : String → JsVal → String)
    (h : cfg.paramsToBeaconUrl = some f) :
    (track env cfg type td st).url = some (f type (track env cfg type td st).data) := by
  rw [track_url_eq, h]

/-- C7: `setProperty` updates the configuration's property id in place,
dispatches nothing, leaves the other configuration fields unchanged, and
every subsequent payload built from the updated configuration carries the
new property id. -/
theorem setProperty_updates_in_place (env : Env) (cfg : Config) (data : JsVal)
    (st : TrackerState) (type : String) (td : List (String × JsVal)) (st2 : TrackerState) :
    (setPropertyTracker cfg data).property = some (jsField (jsField data "property") "id") ∧
    (setPropertyTracker cfg data).user = cfg.user ∧
    (setPropertyTracker cfg data).paramsToBeaconUrl = cfg.paramsToBeaconUrl ∧
    (setPropertyTracker cfg data).jetlore = cfg.jetlore ∧
    dispatchTracker env cfg "setProperty" data st
      = { config := setPropertyTracker cfg data, state := st, events := [], effects := [] } ∧
    jsField (track env (setPropertyTracker cfg data) type td st2).data "property"
      = .obj [("id", jsField (jsField data "property") "id")] := by
  refine ⟨rfl, rfl, rfl, rfl, rfl, ?_⟩
  rw [track_field_property]
  rfl

theorem track_effects_beacon (env : Env) (cfg : Config) (type : String)
    (td : List (String × JsVal)) (st : TrackerState) :
    ∀ e ∈ (track env cfg type td st).effects, isJetloreEffect e = false := by
  intro e he
  rw [track_effects_eq] at he
  rcases hurl : (track env cfg type td st).url with _ | u
  · rw [hurl] at he
    simp at he
  · rw [hurl] at he
    simp at he
    rw [he]
    rfl

theorem dispatchTracker_effects_beacon (env : Env) (cfg : Config) (type : String)
    (data : JsVal) (st : TrackerState) :
    ∀ e ∈ (dispatchTracker env cfg type data st).effects, isJetloreEffect e = false := by
  unfold dispatchTracker
  split_ifs
  · exact track_effects_beacon env cfg "view" (jsSpreadFields data) st
  · exact track_effects_beacon env cfg "cartEvent" _ _
  · exact track_effects_beacon env cfg "cartEvent" _ _
  · exact track_effects_beacon env cfg "cartEvent" _ _
  · exact track_effects_beacon env cfg "purchase" (jsSpreadFields data) st
  · exact track_effects_beacon env _ "setUser" _ _
  · intro e he
    simp at he
  · intro e he
    simp at he

/-- C6: for every generic dispatch call and every event type, if jetlore
credentials are absent from the configuration, no call into the external
tracking client occurs. -/
theorem noForward_without_jetlore (env : Env) (cfg : Config) (type : String) (data : JsVal)
    (st : TrackerState) (h : cfg.jetlore = none) :
    (trackEvent env cfg type data st).effects.all (fun e => !isJetloreEffect e) = true := by
  rw [List.all_eq_true]
  intro e he
  unfold trackEvent at he
  rw [h] at he
  simp only [Option.isSome_none, Bool.false_and, if_false, List.nil_append] at he
  have := dispatchTracker_effects_beacon env cfg type data st e he
  simp [this]

/-- C9: a generic dispatch call whose type is neither in the jetlore
allow-list nor a known tracker name is a silent no-op: no forwarding, no
beacon, no state change, and no error. -/
theorem unknown_type_noop (env : Env) (cfg : Config) (type : String) (data : JsVal)
    (st : TrackerState) (h1 : jetloreTrackTypes.contains type = false)
    (h2 : trackerNames.contains type = false) :
    trackEvent env cfg type data st
      = { config := cfg, state := st, events := [], effects := [] } := by
  have hne : type ≠ "view" ∧ type ≠ "addToCart" ∧ type ≠ "setCart" ∧ type ≠ "removeFromCart"
      ∧ type ≠ "purchase" ∧ type ≠ "setUser" ∧ type ≠ "setProperty" := by
    simp [trackerNames] at h2
    tauto
  obtain ⟨n1, n2, n3, n4, n5, n6, n7⟩ := hne
  have hj : (if cfg.jetlore.isSome then jetloreTrackTypes.contains type else false) = false := by
    cases h : cfg.jetlore.isSome
    · simp
    · simpa using h1
  unfold trackEvent dispatchTracker
  rw [if_neg n1, if_neg n2, if_neg n3, if_neg n4, if_neg n5, if_neg n6, if_neg n7, hj]
  simp

/-- C8: `addToCart` persists the JSON-serialised cart data under
`paypal-cr-cart` with a seven-day time-to-live — overwriting whatever the
key held before — and dispatches the cart event with the `addToCart`
discriminator. -/
theorem addToCart_persists_snapshot (env : Env) (cfg : Config) (data : JsVal)
    (st : TrackerState) (s : String) (hs : jsonStringify data = some s) :
    sevenDays = 7 * 24 * 60 * 60 * 1000 ∧
    getCookieEntry (addToCartTracker env cfg data st).state.cookies "paypal-cr-cart"
      = some (s, sevenDays) ∧
    ∃ d, (addToCartTracker env cfg data st).events = [("cartEvent", d)] ∧
      jsField d "cartEventType" = .str "addToCart" := by
  refine ⟨by norm_num [sevenDays], ?_, ?_⟩
  · show getCookieEntry (track env cfg "cartEvent"
        (jsAssign (jsSpreadFields data) "cartEventType" (.str "addToCart"))
        (TrackerState.mk (setCookieStore st.cookies "paypal-cr-cart"
          ((jsonStringify data).getD "undefined") sevenDays) st.gen)).state.cookies
        "paypal-cr-cart" = some (s, sevenDays)
    rw [track_state_eq]
    by_cases hc : (getUserIdCookie (TrackerState.mk (setCookieStore st.cookies "paypal-cr-cart"
        ((jsonStringify data).getD "undefined") sevenDays) st.gen)).isSome = true
    · rw [if_pos hc]
      show getCookieEntry (setCookieStore st.cookies "paypal-cr-cart"
        ((jsonStringify data).getD "undefined") sevenDays) "paypal-cr-cart" = _
      rw [getCookieEntry_set_self, hs]
      rfl
    · rw [if_neg hc]
      show getCookieEntry (setCookieStore (setCookieStore st.cookies "paypal-cr-cart"
          ((jsonStringify data).getD "undefined") sevenDays)
          "paypal-user-id" _ oneMonthMs) "paypal-cr-cart" = _
      rw [getCookieEntry_set_ne _ _ _ _ _ (by decide), getCookieEntry_set_self, hs]
      rfl
  · refine ⟨(track env cfg "cartEvent"
        (jsAssign (jsSpreadFields data) "cartEventType" (.str "addToCart"))
        (TrackerState.mk (setCookieStore st.cookies "paypal-cr-cart"
          ((jsonStringify data).getD "undefined") sevenDays) st.gen)).data, rfl, ?_⟩
    rw [track_field_td _ _ _ _ _ _ (by decide) (by decide) (by decide) (by decide) (by decide)]
    rw [jsLookup_jsAssign_self]
    rfl

/-- C10: during `Tracker` construction with jetlore credentials, the
initialisation config carries the credentials, and `div`/`lang` are copied
only when absent: a truthy caller-supplied value is never assigned into
the initialisation config, while an absent (`undefined`) value is assigned
as an explicit absent field. -/
theorem jetloreInit_div_lang (cfg : Config) (jl : JetloreInput) (h : cfg.jetlore = some jl) :
    trackerInitEffects cfg = [.jlTracking (buildJetloreConfig jl)] ∧
    (buildJetloreConfig jl).cid = jl.access_token ∧
    (buildJetloreConfig jl).user_id = jl.user_id ∧
    (buildJetloreConfig jl).feed_id = jl.feed_id ∧
    (jsTruthy jl.div = true → (buildJetloreConfig jl).div = none) ∧
    (jl.div = .undefined → (buildJetloreConfig jl).div = some .undefined) ∧
    (jsTruthy jl.lang = true → (buildJetloreConfig jl).lang = none) ∧
    (jl.lang = .undefined → (buildJetloreConfig jl).lang = some .undefined) := by
  refine ⟨by rw [trackerInitEffects, h], rfl, rfl, rfl, ?_, ?_, ?_, ?_⟩
  · intro ht
    simp [buildJetloreConfig, ht]
  · intro hu
    simp [buildJetloreConfig, hu, jsTruthy]
  · intro ht
    simp [buildJetloreConfig, ht]
  · intro hu
    simp [buildJetloreConfig, hu, jsTruthy]

theorem jsonStringify_eq_some {v : JsVal} {s : String} (h : jsonStringify v = some s) :
    s = ⟨stringifyChars (scrub v)⟩ := by
  cases v with
  | undefined => simp [jsonStringify] at h
  | null => simp only [jsonStringify, Option.some_inj] at h; exact h.symm
  | bool b => simp only [jsonStringify, Option.some_inj] at h; exact h.symm
  | str s2 => simp only [jsonStringify, Option.some_inj] at h; exact h.symm
  | arr xs => simp only [jsonStringify, Option.some_inj] at h; exact h.symm
  | obj fs => simp only [jsonStringify, Option.some_inj] at h; exact h.symm

/-- C1: with no override configured, on any call whose serialised payload
`btoa` accepts (all code units below 256 — otherwise `btoa` throws and no
URL is produced), the beacon URL is exactly
`https://www.paypal.com/targeting/track/<trackingType>?data=<enc>` with
`<enc> = encodeURIComponent (btoa (JSON.stringify payload))`, and
URL-decoding, base64-decoding and JSON-parsing `<enc>` reproduces the
merged payload (as the JSON value `JSON.stringify` serialises, i.e. with
`undefined`-valued fields dropped — `scrub`). -/
theorem beacon_url_roundtrip (env : Env) (cfg : Config) (type : String)
    (td : List (String × JsVal)) (st : TrackerState)
    (hov : cfg.paramsToBeaconUrl = none) (s : String)
    (hs : jsonStringify (track env cfg type td st).data = some s)
    (hlat : s.data.all (fun c => c.toNat < 256) = true) :
    ∃ b : String, btoa s = some b ∧
      (track env cfg type td st).url = some (beaconUrl type (encodeURIComponent b)) ∧
      (decodeURIComponent (encodeURIComponent b)).bind
          (fun t => (atob t).bind (fun u => jsonParse u))
        = some (scrub (track env cfg type td st).data) := by
  obtain ⟨hb, hab⟩ := atob_btoa s hlat
  refine ⟨⟨btoaBytes (s.data.map Char.toNat)⟩, hb, ?_, ?_⟩
  · rw [track_url_eq, hov, hs]
    show (encodeData s).map (beaconUrl type) = _
    rw [show encodeData s = (btoa s).map encodeURIComponent from rfl, hb]
    rfl
  · rw [decodeURIComponent_encodeURIComponent]
    rw [Option.some_bind, hab, Option.some_bind]
    rw [jsonStringify_eq_some hs]
    exact jsonParse_stringifyChars _ (noUndefined_scrub _)

/-- C3 (code defect): `trackEvent` invokes `getJetlorePayload(data)` with a
single argument, so the data object lands in the `type` parameter, the
`payload` parameter is `undefined`, the `switch` matches no case, and the
external client is handed `undefined` instead of the type-specific
reshaped payload (shown here for a `view` event; the reshape that the
function computes when called as declared is also shown).  The
declaration itself is additionally unparsable in the source (`cosnt`). -/
theorem trackEvent_forwards_undefined_payload :
    (trackEvent sampleEnv sampleJetloreConfig "view" sampleViewData sampleState).effects.head?
      = some (.jlCall "view" (getJetlorePayload sampleViewData .undefined)) ∧
    getJetlorePayload sampleViewData .undefined = .undefined ∧
    getJetlorePayload (.str "view") sampleViewData
      = .obj [("name", .str "shoes"), ("refinements", .arr [.str "red"])] ∧
    getJetlorePayload (.str "view") sampleViewData ≠ .undefined := by
  refine ⟨rfl, rfl, rfl, fun h => ?_⟩
  rw [show getJetlorePayload (.str "view") sampleViewData
      = .obj [("name", .str "shoes"), ("refinements", .arr [.str "red"])] from rfl] at h
  cases h

/-! ## Witness instances -/

theorem trackers_ensure_identity_witness :
    sampleEnv.genId sampleState.gen ≠ "" ∧
    identityProps sampleEnv sampleState
      (viewTracker sampleEnv defaultTrackerConfig sampleViewData sampleState) :=
  ⟨by decide,
   (trackers_ensure_identity sampleEnv defaultTrackerConfig sampleViewData sampleState
     (by decide)).1⟩

theorem paramsToBeaconUrl_override_witness :
    sampleOverrideConfig.paramsToBeaconUrl = some sampleOverride ∧
    (track sampleEnv sampleOverrideConfig "view" [] sampleState).url
      = some (sampleOverride "view"
          (track sampleEnv sampleOverrideConfig "view" [] sampleState).data) :=
  ⟨rfl, paramsToBeaconUrl_override sampleEnv sampleOverrideConfig "view" [] sampleState
    sampleOverride rfl⟩

theorem noForward_without_jetlore_witness :
    defaultTrackerConfig.jetlore = none ∧
    (trackEvent sampleEnv defaultTrackerConfig "view" sampleViewData
        sampleState).effects.all (fun e => !isJetloreEffect e) = true :=
  ⟨rfl, noForward_without_jetlore sampleEnv defaultTrackerConfig "view" sampleViewData
    sampleState rfl⟩

theorem unknown_type_noop_witness :
    jetloreTrackTypes.contains "bogus" = false ∧
    trackerNames.contains "bogus" = false ∧
    trackEvent sampleEnv defaultTrackerConfig "bogus" sampleViewData sampleState
      = { config := defaultTrackerConfig, state := sampleState, events := [], effects := [] } :=
  ⟨by decide, by decide,
   unknown_type_noop sampleEnv defaultTrackerConfig "bogus" sampleViewData sampleState
     (by decide) (by decide)⟩

theorem addToCart_persists_snapshot_witness :
    jsonStringify sampleViewData = some "\x7b\"name\":\"shoes\",\"refinements\":[\"red\"]\x7d" ∧
    (sevenDays = 7 * 24 * 60 * 60 * 1000 ∧
     getCookieEntry (addToCartTracker sampleEnv defaultTrackerConfig sampleViewData
        sampleState).state.cookies "paypal-cr-cart"
       = some ("\x7b\"name\":\"shoes\",\"refinements\":[\"red\"]\x7d", sevenDays) ∧
     ∃ d, (addToCartTracker sampleEnv defaultTrackerConfig sampleViewData
        sampleState).events = [("cartEvent", d)] ∧
       jsField d "cartEventType" = .str "addToCart") :=
  ⟨rfl, addToCart_persists_snapshot sampleEnv defaultTrackerConfig sampleViewData sampleState
    "\x7b\"name\":\"shoes\",\"refinements\":[\"red\"]\x7d" rfl⟩

theorem jetloreInit_div_lang_witness :
    sampleDivConfig.jetlore = some sampleJetloreInput ∧
    jsTruthy sampleJetloreInput.div = true ∧
    (buildJetloreConfig sampleJetloreInput).div = none ∧
    sampleJetloreInput.lang = .undefined ∧
    (buildJetloreConfig sampleJetloreInput).lang = some .undefined :=
  ⟨rfl, rfl, (jetloreInit_div_lang sampleDivConfig sampleJetloreInput rfl).2.2.2.2.1 rfl,
   rfl, (jetloreInit_div_lang sampleDivConfig sampleJetloreInput rfl).2.2.2.2.2.2.2 rfl⟩

theorem beacon_url_roundtrip_witness :
    defaultTrackerConfig.paramsToBeaconUrl = none ∧
    jsonStringify (track sampleEnv defaultTrackerConfig "view"
        [("page", JsVal.str "home")] sampleState).data
      = some "\x7b\"page\":\"home\",\"user\":\x7b\"id\":\"uid0\"\x7d,\"trackingType\":\"view\",\"clientId\":\"cid\",\"merchantId\":\"m1,m2\"\x7d" ∧
    ("\x7b\"page\":\"home\",\"user\":\x7b\"id\":\"uid0\"\x7d,\"trackingType\":\"view\",\"clientId\":\"cid\",\"merchantId\":\"m1,m2\"\x7d" : String).data.all
        (fun c => c.toNat < 256) = true ∧
    (∃ b : String,
      btoa "\x7b\"page\":\"home\",\"user\":\x7b\"id\":\"uid0\"\x7d,\"trackingType\":\"view\",\"clientId\":\"cid\",\"merchantId\":\"m1,m2\"\x7d" = some b ∧
      (track sampleEnv defaultTrackerConfig "view" [("page", JsVal.str "home")]
          sampleState).url = some (beaconUrl "view" (encodeURIComponent b)) ∧
      (decodeURIComponent (encodeURIComponent b)).bind
          (fun t => (atob t).bind (fun u => jsonParse u))
        = some (scrub (track sampleEnv defaultTrackerConfig "view"
            [("page", JsVal.str "home")] sampleState).data)) :=
  ⟨rfl, rfl, rfl,
   beacon_url_roundtrip sampleEnv defaultTrackerConfig "view" [("page", JsVal.str "home")]
     sampleState rfl
     "\x7b\"page\":\"home\",\"user\":\x7b\"id\":\"uid0\"\x7d,\"trackingType\":\"view\",\"clientId\":\"cid\",\"merchantId\":\"m1,m2\"\x7d"
     rfl rfl⟩

end Muse
